import Mathlib

/-!
# jukebox: index manager

A shallow embedding of `src/managers/index_manager.cpp` (class `IndexManager`)
and the properties of its merge algorithm (`getNongs`), its download
bookkeeping (`downloadSong`, `stopDownloadingSong`, `getSongDownloadProgress`,
the download listener) and its index synchronisation (`init`, `fetchIndexes`,
`loadIndex`, the fetch listener).

Conventions of the embedding
* C++ containers keyed by an id (`m_indexNongs`, `m_downloadProgress`, ...) are
  association lists with the container operations the source uses
  (`contains`, `at`, `erase`, `emplace`, `operator[]=`, `clear`).
* `Result<T>` is `Except _ T`; `std::optional<T>` is `Option T`.
* Posted events, Local Store calls and started web requests are recorded, in
  program order, in an effect log returned next to the new manager state.
* A C++ exception (`std::map::at` on a missing key, `.value()` on an empty
  optional) is an explicit outcome of the function that raises it.
-/

deriving instance DecidableEq for Except

namespace jukebox

/-! ## Containers -/

/-- Association-list model of the keyed containers of the manager. -/
abbrev Map (κ ν : Type) := List (κ × ν)

namespace Map

variable {κ ν : Type} [DecidableEq κ]

/-- Lookup of a key: `some v` iff the container holds the key (`find`). -/
def get? (m : Map κ ν) (k : κ) : Option ν :=
  match m with
  | [] => none
  | (k', v) :: rest => if k' = k then some v else get? rest k

/-- Container `contains`. -/
def contains (m : Map κ ν) (k : κ) : Bool := (get? m k).isSome

/-- Container `erase(key)`: drops every entry stored under the key. -/
def erase (m : Map κ ν) (k : κ) : Map κ ν := m.filter (fun p => decide (p.1 ≠ k))

/-- Container `emplace(key, value)`: inserts only when the key is absent. -/
def emplace (m : Map κ ν) (k : κ) (v : ν) : Map κ ν :=
  if contains m k then m else m ++ [(k, v)]

/-- Container `m[key] = value`: overwrites the entry or inserts it. -/
def set (m : Map κ ν) (k : κ) (v : ν) : Map κ ν :=
  if contains m k then m.map (fun p => if p.1 = k then (k, v) else p) else m ++ [(k, v)]

end Map

/-! ## Variant data model (`include/nong.hpp`, as used by the manager) -/

/-- The value built by `SongMetadata(gdID, uniqueID, name, artist, <optional>, startOffset)`. -/
structure SongMetadata where
  m_gdID : Int
  m_uniqueID : String
  m_name : String
  m_artist : String
  m_level : Option String
  m_startOffset : Int
deriving DecidableEq, Repr

/-- A variant backed by a file on disk. -/
structure LocalSong where
  metadata : SongMetadata
  path : String
deriving DecidableEq, Repr

/-- A streaming variant: `YTSong(metadata, ytID, indexID, path)`. -/
structure YTSong where
  metadata : SongMetadata
  youtubeID : String
  indexID : Option String
  path : Option String
deriving DecidableEq, Repr

/-- A hosted variant: `HostedSong(metadata, url, indexID, path)`. -/
structure HostedSong where
  metadata : SongMetadata
  url : String
  indexID : Option String
  path : Option String
deriving DecidableEq, Repr

/-- The tagged union `Nong` over the three kinds of variant. -/
inductive Nong where
  | localSong (song : LocalSong)
  | ytSong (song : YTSong)
  | hostedSong (song : HostedSong)
deriving DecidableEq, Repr

/-- Accessor `Nong::metadata()`. -/
def Nong.metadata : Nong → SongMetadata
  | .localSong s => s.metadata
  | .ytSong s => s.metadata
  | .hostedSong s => s.metadata

/-- The per-track variant set `Nongs`, with the four accessors the manager reads. -/
structure Nongs where
  songID : Int
  defaultSong : LocalSong
  locals : List LocalSong
  youtube : List YTSong
  hosted : List HostedSong
deriving DecidableEq, Repr

/-- Modelled from the spec: the Local Variant Store (class `NongManager`, whose
source is not part of the sources at hand) as the in-memory map keyed by track
ID that owns one variant set per track. -/
structure NongManager where
  m_manifest : Map Int Nongs

/-- Modelled from the spec: `NongManager::getNongs(trackID)`, the per-track
lookup of the store; absent when the track has no Local Store entry. -/
def NongManager.getNongs (self : NongManager) (gdSongID : Int) : Option Nongs :=
  Map.get? self.m_manifest gdSongID

/-! ## Manager state -/

/-- One configured index of the `indexes` setting. -/
structure IndexSource where
  m_url : String
  m_enabled : Bool
deriving DecidableEq, Repr

/-- Identity of a loaded index: id, display name and source URL. -/
structure IndexMetadata where
  m_id : String
  m_name : String
  m_url : String
deriving DecidableEq, Repr

/-- The closure bound to an index-fetch listener; it captures `index` and `filepath`. -/
structure FetchIndexListener where
  index : IndexSource
  filepath : String
deriving DecidableEq, Repr

/-- The closure bound to a download listener; it captures `id` and `hosted`. -/
structure DownloadSongListener where
  id : String
  hosted : HostedSong
deriving DecidableEq, Repr

/-- A download progress value (the `float` stored in `m_downloadProgress`); the
manager only stores and forwards it. -/
abbrev Progress := Rat

/-- The fields of `IndexManager`. -/
structure IndexManager where
  m_initialized : Bool
  m_indexListeners : Map String FetchIndexListener
  m_indexNongs : Map Int Nongs
  m_loadedIndexes : Map String IndexMetadata
  m_downloadSongListeners : Map String DownloadSongListener
  m_downloadProgress : Map String Progress
deriving DecidableEq, Repr

/-! ## `IndexManager::getNongs` -/

/-- Lines 259-261: every local song of the store is pushed. -/
def pushLocals (locals : List LocalSong) (nongs : List Nong) : List Nong :=
  locals.foldl (fun nongs song => nongs ++ [Nong.localSong song]) nongs

/-- Lines 267-272: one `push_back` of the store song's id per index song of the
same kind with the same `m_uniqueID`. -/
def markYT (song : YTSong) (indexSongs : List YTSong) (addedIndexSongs : List String) :
    List String :=
  indexSongs.foldl (fun added indexSong =>
    if song.metadata.m_uniqueID = indexSong.metadata.m_uniqueID
    then added ++ [song.metadata.m_uniqueID] else added) addedIndexSongs

/-- Lines 280-285, the hosted twin of `markYT`. -/
def markHosted (song : HostedSong) (indexSongs : List HostedSong)
    (addedIndexSongs : List String) : List String :=
  indexSongs.foldl (fun added indexSong =>
    if song.metadata.m_uniqueID = indexSong.metadata.m_uniqueID
    then added ++ [song.metadata.m_uniqueID] else added) addedIndexSongs

/-- Lines 264-275: the loop over the store's streaming songs. The inner check
runs only when the track has index songs and the store song carries an index id;
the store song is pushed in every case. -/
def pushStoreYT (indexNongs : Option Nongs) (songs : List YTSong)
    (acc : List Nong × List String) : List Nong × List String :=
  songs.foldl (fun acc song =>
    let added :=
      match indexNongs with
      | some idx =>
        if song.indexID.isSome then markYT song idx.youtube acc.2 else acc.2
      | none => acc.2
    (acc.1 ++ [Nong.ytSong song], added)) acc

/-- Lines 277-288: the loop over the store's hosted songs. -/
def pushStoreHosted (indexNongs : Option Nongs) (songs : List HostedSong)
    (acc : List Nong × List String) : List Nong × List String :=
  songs.foldl (fun acc song =>
    let added :=
      match indexNongs with
      | some idx =>
        if song.indexID.isSome then markHosted song idx.hosted acc.2 else acc.2
      | none => acc.2
    (acc.1 ++ [Nong.hostedSong song], added)) acc

/-- Lines 291-296: index streaming songs whose id `std::find` does not find in
`addedIndexSongs` are pushed. -/
def pushIndexYT (addedIndexSongs : List String) (songs : List YTSong) (nongs : List Nong) :
    List Nong :=
  songs.foldl (fun nongs song =>
    if song.metadata.m_uniqueID ∉ addedIndexSongs then nongs ++ [Nong.ytSong song]
    else nongs) nongs

/-- Lines 298-303: the same for index hosted songs. -/
def pushIndexHosted (addedIndexSongs : List String) (songs : List HostedSong)
    (nongs : List Nong) : List Nong :=
  songs.foldl (fun nongs song =>
    if song.metadata.m_uniqueID ∉ addedIndexSongs then nongs ++ [Nong.hostedSong song]
    else nongs) nongs

/-- The method `IndexManager::getNongs(gdSongID)` (lines 249-307). -/
def IndexManager.getNongs (self : IndexManager) (nongManager : NongManager) (gdSongID : Int) :
    Except String (List Nong) :=
  match nongManager.getNongs gdSongID with
  | none => .error "Failed to get nongs"
  | some localNongs =>
    let indexNongs : Option Nongs :=
      if Map.contains self.m_indexNongs gdSongID then Map.get? self.m_indexNongs gdSongID
      else none
    let nongs : List Nong := []
    let nongs := nongs ++ [Nong.localSong localNongs.defaultSong]
    let nongs := pushLocals localNongs.locals nongs
    let acc := pushStoreYT indexNongs localNongs.youtube (nongs, [])
    let acc := pushStoreHosted indexNongs localNongs.hosted acc
    let nongs := acc.1
    let addedIndexSongs := acc.2
    let nongs :=
      match indexNongs with
      | some idx =>
        let nongs := pushIndexYT addedIndexSongs idx.youtube nongs
        pushIndexHosted addedIndexSongs idx.hosted nongs
      | none => nongs
    .ok nongs

/-! ### Declarative reading of the merge -/

/-- The `uniqueID` of a variant. -/
def Nong.uniqueID (n : Nong) : String := n.metadata.m_uniqueID

/-- Every variant of a store entry: default, locals, streaming, hosted. -/
def Nongs.variants (l : Nongs) : List Nong :=
  [Nong.localSong l.defaultSong] ++ l.locals.map Nong.localSong
    ++ l.youtube.map Nong.ytSong ++ l.hosted.map Nong.hostedSong

/-- The streaming and hosted variants an index declares for a track, in index order. -/
def Nongs.indexVariants (idx : Nongs) : List Nong :=
  idx.youtube.map Nong.ytSong ++ idx.hosted.map Nong.hostedSong

/-- The ordering law with the restriction left open: default, locals, the
store's streaming and hosted variants, then the index variants whose `uniqueID`
is not `represented`. -/
def resolveWith (represented : Nongs → Nongs → String → Bool) (localNongs : Nongs)
    (indexNongs : Option Nongs) : List Nong :=
  localNongs.variants ++
    (match indexNongs with
     | some idx => idx.indexVariants.filter (fun n => !represented localNongs idx n.uniqueID)
     | none => [])

/-- The restriction as C1 words it: the `uniqueID` is that of some store variant. -/
def representedByStore (localNongs : Nongs) (_idx : Nongs) (u : String) : Bool :=
  localNongs.variants.any (fun n => n.uniqueID == u)

/-- The restriction as step 2 of the spec's `resolve` words it: some streaming or
hosted store variant carrying an `originIndexID` has the `uniqueID`, and so does
some index variant. -/
def markedBySpec (localNongs : Nongs) (idx : Nongs) (u : String) : Bool :=
  (localNongs.youtube.any (fun s => s.indexID.isSome && s.metadata.m_uniqueID == u)
    || localNongs.hosted.any (fun s => s.indexID.isSome && s.metadata.m_uniqueID == u))
  && idx.indexVariants.any (fun n => n.uniqueID == u)

/-- The restriction the code applies: a streaming (resp. hosted) store variant
carrying an `originIndexID` has the `uniqueID`, and so does an index variant of
the same kind. -/
def markedSameKind (localNongs : Nongs) (idx : Nongs) (u : String) : Bool :=
  localNongs.youtube.any (fun s => s.indexID.isSome && s.metadata.m_uniqueID == u
      && idx.youtube.any (fun i => i.metadata.m_uniqueID == u))
  || localNongs.hosted.any (fun s => s.indexID.isSome && s.metadata.m_uniqueID == u
      && idx.hosted.any (fun i => i.metadata.m_uniqueID == u))

/-! ### Sample data -/

/-- Metadata of a sample variant of track 911. -/
def sampleMeta (u : String) : SongMetadata := ⟨911, u, "name", "artist", none, 0⟩

/-- A sample store entry: the default, a user-added streaming variant `x` (no
index id) and a hosted variant `y` that came from index `idx1`. -/
def sampleStore : Nongs :=
  { songID := 911
    defaultSong := ⟨sampleMeta "d", "default.mp3"⟩
    locals := []
    youtube := [⟨sampleMeta "x", "yt-x", none, none⟩]
    hosted := [⟨sampleMeta "y", "http://h/y.mp3", some "idx1", none⟩] }

/-- A sample index entry: streaming variants `x` and `y`, no hosted variant. -/
def sampleIndex : Nongs :=
  { songID := 911
    defaultSong := ⟨sampleMeta "unknown", ""⟩
    locals := []
    youtube := [⟨sampleMeta "x", "yt-x", some "idx1", none⟩,
                ⟨sampleMeta "y", "yt-y", some "idx1", none⟩]
    hosted := [] }

/-- The empty manager. -/
def IndexManager.empty : IndexManager := ⟨false, [], [], [], [], []⟩

/-- A manager whose index map holds `sampleIndex` for track 911. -/
def sampleManager : IndexManager := { IndexManager.empty with m_indexNongs := [(911, sampleIndex)] }

/-- A store holding `sampleStore` for track 911. -/
def sampleNongManager : NongManager := ⟨[(911, sampleStore)]⟩


/-- The newly discovered index streaming variants: those the restriction of the
code keeps, in index order. -/
def newYT (l idx : Nongs) : List Nong :=
  (idx.youtube.map Nong.ytSong).filter (fun n => !markedSameKind l idx n.uniqueID)

/-- The newly discovered index hosted variants, in index order. -/
def newHosted (l idx : Nongs) : List Nong :=
  (idx.hosted.map Nong.hostedSong).filter (fun n => !markedSameKind l idx n.uniqueID)

/-- A store entry with the default and one user-added streaming variant `x`,
which carries no index id. -/
def userStore : Nongs :=
  { songID := 911
    defaultSong := ⟨sampleMeta "d", "default.mp3"⟩
    locals := []
    youtube := [⟨sampleMeta "x", "yt-x", none, none⟩]
    hosted := [] }

/-- An index entry declaring the streaming variant `x`. -/
def indexOfX : Nongs :=
  { songID := 911
    defaultSong := ⟨sampleMeta "unknown", ""⟩
    locals := []
    youtube := [⟨sampleMeta "x", "yt-x", some "idx1", none⟩]
    hosted := [] }

/-- A manager whose index map holds `indexOfX` for track 911. -/
def managerOfX : IndexManager := { IndexManager.empty with m_indexNongs := [(911, indexOfX)] }

/-- A store holding `userStore` for track 911. -/
def userNongManager : NongManager := ⟨[(911, userStore)]⟩

/-- A store entry whose streaming variant `x` came from index `idx1`. -/
def syncedStore : Nongs :=
  { userStore with youtube := [⟨sampleMeta "x", "yt-x", some "idx1", none⟩] }

/-- A store holding `syncedStore` for track 911. -/
def syncedNongManager : NongManager := ⟨[(911, syncedStore)]⟩

/-! ## Events and effects -/

/-- The two events the manager posts. -/
inductive Event where
  | SongStateChanged (gdSongID : Int)
  | SongDownloadProgress (gdSongID : Int) (uniqueID : String) (progress : Progress)
deriving DecidableEq, Repr

/-- What a manager operation does to its surroundings, in program order: posting
an event, starting a web request, the calls into the Local Store, and the two
calls into the mod's settings and saved values. -/
inductive Effect where
  | post (event : Event)
  | webRequest (url : String)
  | deleteSong (gdSongID : Int) (uniqueID : String)
  | addNongs (nong : Nong)
  | setActiveSong (gdSongID : Int) (uniqueID : String)
  | addCustomSetting
  | cacheIndexName (indexId : String) (indexName : String)
deriving DecidableEq, Repr

/-- Whether an effect posts a `SongStateChanged` event of any track. -/
def Effect.isAnyStateChanged : Effect → Bool
  | .post (.SongStateChanged _) => true
  | _ => false

/-- The new manager state, the effects in program order and the returned value
of an operation. -/
structure Outcome (α : Type) where
  state : IndexManager
  effects : List Effect
  result : α
deriving DecidableEq, Repr

/-! ## Download bookkeeping -/

/-- The method `IndexManager::getSongDownloadProgress` (lines 230-235). The
lookup `m_downloadProgress.at(uniqueID)` raises on a missing key; that outcome is
the `error` of the result. -/
def IndexManager.getSongDownloadProgress (self : IndexManager) (uniqueID : String) :
    Except String (Option Progress) :=
  if Map.contains self.m_downloadSongListeners uniqueID then
    match Map.get? self.m_downloadProgress uniqueID with
    | some progress => .ok (some progress)
    | none => .error "std::out_of_range"
  else .ok none

/-- The method `IndexManager::stopDownloadingSong` (lines 309-318). -/
def IndexManager.stopDownloadingSong (self : IndexManager) (gdSongID : Int)
    (uniqueID : String) : Outcome (Except String Unit) :=
  if Map.contains self.m_downloadSongListeners uniqueID then
    let self := { self with
      m_downloadSongListeners := Map.erase self.m_downloadSongListeners uniqueID }
    let self := { self with m_downloadProgress := Map.erase self.m_downloadProgress uniqueID }
    ⟨self, [Effect.post (Event.SongStateChanged gdSongID)], .ok ()⟩
  else
    ⟨self, [], .error "Trying to stop downloading a song that is not being downloaded"⟩

/-- The overload `IndexManager::downloadSong(HostedSong&)` (lines 340-415): the
records of the id are erased, the web request for the URL is started, the
listener (capturing `id` and `hosted`) is registered, the progress record is set
to zero and the first progress event is posted. -/
def IndexManager.downloadHostedSong (self : IndexManager) (hosted : HostedSong) :
    Outcome (Except String Unit) :=
  let id := hosted.metadata.m_uniqueID
  let self := { self with m_downloadProgress := Map.erase self.m_downloadProgress id }
  let self := { self with
    m_downloadSongListeners := Map.erase self.m_downloadSongListeners id }
  let listener : DownloadSongListener := ⟨id, hosted⟩
  let self := { self with
    m_downloadSongListeners := Map.emplace self.m_downloadSongListeners id listener }
  let self := { self with m_downloadProgress := Map.set self.m_downloadProgress id 0 }
  ⟨self,
   [Effect.webRequest hosted.url,
    Effect.post (Event.SongDownloadProgress hosted.metadata.m_gdID id 0)],
   .ok ()⟩

/-- The visitor of lines 327-333, applied to the matched variant. -/
def IndexManager.visitForDownload (self : IndexManager) : Nong → Outcome (Except String Unit)
  | .localSong _ => ⟨self, [], .error "Song type not supported for download"⟩
  | .ytSong _ => ⟨self, [], .error "Song type not supported for download"⟩
  | .hostedSong hostedSong => self.downloadHostedSong hostedSong

/-- The loop of lines 325-335: the first variant whose `m_uniqueID` equals the
requested id is visited and the visit's result returned; `none` when the loop
runs to its end. -/
def IndexManager.downloadLoop (self : IndexManager) (uniqueID : String) :
    List Nong → Option (Outcome (Except String Unit))
  | [] => none
  | nong :: rest =>
    if nong.metadata.m_uniqueID = uniqueID then some (self.visitForDownload nong)
    else self.downloadLoop uniqueID rest

/-- The overload `IndexManager::downloadSong(int, const std::string&)` (lines 320-338). -/
def IndexManager.downloadSong (self : IndexManager) (nongManager : NongManager)
    (gdSongID : Int) (uniqueID : String) : Outcome (Except String Unit) :=
  match self.getNongs nongManager gdSongID with
  | .error _ =>
    ⟨self, [], .error ("GD song " ++ toString gdSongID ++ " not initialized in manifest")⟩
  | .ok nongs =>
    match self.downloadLoop uniqueID nongs with
    | some outcome => outcome
    | none => ⟨self, [], .error ("Song " ++ uniqueID ++ " not found in manifest")⟩

/-- A hosted variant `h` of track 911 that was added by the user (no index id). -/
def sampleHosted : HostedSong := ⟨sampleMeta "h", "http://x/h.mp3", none, none⟩

/-- A store entry with the default and the hosted variant `h`. -/
def hostedStore : Nongs :=
  { userStore with youtube := [], hosted := [sampleHosted] }

/-- A store holding `hostedStore` for track 911. -/
def hostedNongManager : NongManager := ⟨[(911, hostedStore)]⟩

/-- Whether a variant is of the Hosted kind. -/
def Nong.isHosted : Nong → Bool
  | .hostedSong _ => true
  | _ => false

/-- A manager with a download of `sampleHosted` in flight. -/
def downloadingManager : IndexManager := (IndexManager.empty.downloadHostedSong sampleHosted).state

/-! ## The download listener (lines 364-409) -/

/-- The end of a download task: cancellation, or a value that is an error
message (transport failure) or the destination path of the written file. -/
inductive DownloadEnd where
  | cancelled
  | value (result : Except String String)
deriving DecidableEq, Repr

/-- An event delivered to a download listener: a progress value or the end. -/
inductive DownloadEvent where
  | progress (progress : Progress)
  | terminal (ending : DownloadEnd)
deriving DecidableEq, Repr

/-- The results the Local Store returns to `addNongs` and `setActiveSong` in the
commit phase (the result of `deleteSong` is discarded by the handler). -/
structure StoreReplies where
  addNongs : Except String Unit
  setActiveSong : Except String Unit
deriving DecidableEq, Repr

/-- The manager state after a handler ran, its effects in program order, and the
exception that ended it, if one did. -/
structure HandlerOutcome where
  state : IndexManager
  effects : List Effect
  thrown : Option String
deriving DecidableEq, Repr

/-- Lines 385-387: a hosted song without index id has its previous store copy
deleted through `getNongs(gdID).value()->deleteSong(id)`; `.value()` raises when
the store has no entry for the track. -/
def deleteStep (nongManager : NongManager) (hosted : HostedSong) (id : String) :
    Except String (List Effect) :=
  if !hosted.indexID.isSome then
    match nongManager.getNongs hosted.metadata.m_gdID with
    | some _ => .ok [Effect.deleteSong hosted.metadata.m_gdID id]
    | none => .error "bad_optional_access"
  else .ok []

/-- The handler bound by `downloadSong(HostedSong&)`. -/
def DownloadSongListener.handle (l : DownloadSongListener) (self : IndexManager)
    (nongManager : NongManager) (replies : StoreReplies) (event : DownloadEvent) :
    HandlerOutcome :=
  let id := l.id
  let hosted := l.hosted
  let stateChanged := Effect.post (Event.SongStateChanged hosted.metadata.m_gdID)
  match event with
  | .progress progress =>
    let self := { self with m_downloadProgress := Map.set self.m_downloadProgress id progress }
    ⟨self, [Effect.post (Event.SongDownloadProgress hosted.metadata.m_gdID id progress)], none⟩
  | .terminal ending =>
    let self := { self with m_downloadProgress := Map.erase self.m_downloadProgress id }
    let self := { self with
      m_downloadSongListeners := Map.erase self.m_downloadSongListeners id }
    match ending with
    | .cancelled => ⟨self, [stateChanged], none⟩
    | .value (.error _) => ⟨self, [stateChanged], none⟩
    | .value (.ok destination) =>
      match deleteStep nongManager hosted id with
      | .error exception => ⟨self, [], some exception⟩
      | .ok deleted =>
        let nong := Nong.hostedSong
          { metadata := hosted.metadata, url := hosted.url, indexID := hosted.indexID,
            path := some destination }
        match replies.addNongs with
        | .error _ => ⟨self, deleted ++ [Effect.addNongs nong, stateChanged], none⟩
        | .ok _ =>
          let activate := Effect.setActiveSong hosted.metadata.m_gdID hosted.metadata.m_uniqueID
          match replies.setActiveSong with
          | .error _ =>
            ⟨self, deleted ++ [Effect.addNongs nong, activate, stateChanged], none⟩
          | .ok _ =>
            ⟨self, deleted ++ [Effect.addNongs nong, activate, stateChanged], none⟩

/-! ## Index synchronisation -/

/-- One entry of the `nongs.youtube` object of an index document. -/
structure YTEntry where
  songs : List Int
  name : String
  artist : String
  startOffset : Int
  ytID : String
deriving DecidableEq, Repr

/-- One entry of the `nongs.hosted` object of an index document. -/
structure HostedEntry where
  songs : List Int
  name : String
  artist : String
  startOffset : Int
  url : String
deriving DecidableEq, Repr

/-- The JSON value of an index document, as far as the manager reads it: whether
it is an object, the identity fields, and the two keyed objects under `nongs`
in document order. -/
structure IndexDocument where
  isObject : Bool
  id : Option String
  name : Option String
  url : Option String
  youtube : List (String × YTEntry)
  hosted : List (String × HostedEntry)
deriving DecidableEq, Repr

/-- A file of the cache directory: whether it can be opened for reading, and
what `matjson::parse` returns on its contents. -/
structure CacheFile where
  readable : Bool
  contents : Except String IndexDocument
deriving DecidableEq, Repr

/-- The part of the file system the manager touches. -/
structure FileSystem where
  directories : List String
  files : Map String CacheFile
deriving DecidableEq, Repr

/-- The check `std::filesystem::exists`. -/
def FileSystem.exists (fs : FileSystem) (path : String) : Bool :=
  decide (path ∈ fs.directories) || Map.contains fs.files path

/-- The call `std::filesystem::create_directory`. -/
def FileSystem.create_directory (fs : FileSystem) (path : String) : FileSystem :=
  { fs with directories := fs.directories ++ [path] }

/-- Modelled from the spec: `Serialize<IndexMetadata>::from_json` (declared in
`include/index_serialize.hpp`, not among the sources at hand): the index
identity, display name and source URL are read; a missing field is an error. -/
def IndexMetadata.from_json (value : IndexDocument) : Except String IndexMetadata :=
  match value.id, value.name, value.url with
  | some id, some name, some url => .ok ⟨id, name, url⟩
  | _, _, _ => .error "Invalid index metadata"

/-- Modelled from the spec: the constructor `Nongs(gdSongID)` (not among the
sources at hand): a variant set holding only its default variant. -/
def Nongs.new (gdSongID : Int) : Nongs :=
  { songID := gdSongID
    defaultSong := ⟨⟨gdSongID, "default", "Unknown", "", none, 0⟩, ""⟩
    locals := []
    youtube := []
    hosted := [] }

/-- Modelled from the spec: `Nongs::add(YTSong)` (not among the sources at hand):
a `uniqueID` is unique within a variant set, so a variant whose id is taken is
refused; otherwise it is appended to the streaming variants. -/
def Nongs.addYT (self : Nongs) (song : YTSong) : Except String Nongs :=
  if self.variants.any (fun n => n.uniqueID == song.metadata.m_uniqueID) then
    .error "Attempted to add a duplicate song"
  else .ok { self with youtube := self.youtube ++ [song] }

/-- Modelled from the spec: `Nongs::add(HostedSong)`, the hosted twin of `addYT`. -/
def Nongs.addHosted (self : Nongs) (song : HostedSong) : Except String Nongs :=
  if self.variants.any (fun n => n.uniqueID == song.metadata.m_uniqueID) then
    .error "Attempted to add a duplicate song"
  else .ok { self with hosted := self.hosted ++ [song] }

/-- The function `IndexManager::baseIndexesPath` (lines 48-51). -/
def baseIndexesPath (saveDir : String) : String := saveDir ++ "/" ++ "indexes-cache"

/-- Lines 164-165: the cache file of an index. The name is formatted from the
constant `replace-later`; the index is not used. -/
def indexFilePath (saveDir : String) (_index : IndexSource) : String :=
  baseIndexesPath saveDir ++ "/" ++ ("replace-later" ++ ".json")

/-- Lines 91-109, for one track id of one `youtube` entry. -/
def addIndexYT (indexNongs : Map Int Nongs) (indexId key : String) (ytNong : YTEntry)
    (gdSongID : Int) : Map Int Nongs :=
  let indexNongs :=
    if !Map.contains indexNongs gdSongID then Map.emplace indexNongs gdSongID (Nongs.new gdSongID)
    else indexNongs
  match Map.get? indexNongs gdSongID with
  | none => indexNongs
  | some nongs =>
    match nongs.addYT
        ⟨⟨gdSongID, key, ytNong.name, ytNong.artist, none, ytNong.startOffset⟩,
          ytNong.ytID, some indexId, none⟩ with
    | .ok nongs => Map.set indexNongs gdSongID nongs
    | .error _ => indexNongs

/-- Lines 117-135, for one track id of one `hosted` entry. -/
def addIndexHosted (indexNongs : Map Int Nongs) (indexId key : String)
    (hostedNong : HostedEntry) (gdSongID : Int) : Map Int Nongs :=
  let indexNongs :=
    if !Map.contains indexNongs gdSongID then Map.emplace indexNongs gdSongID (Nongs.new gdSongID)
    else indexNongs
  match Map.get? indexNongs gdSongID with
  | none => indexNongs
  | some nongs =>
    match nongs.addHosted
        ⟨⟨gdSongID, key, hostedNong.name, hostedNong.artist, none, hostedNong.startOffset⟩,
          hostedNong.url, some indexId, none⟩ with
    | .ok nongs => Map.set indexNongs gdSongID nongs
    | .error _ => indexNongs

/-- The last component of a path (`path.filename()`). -/
def filename (path : String) : String := ((path.splitOn "/").getLast?).getD path

/-- The method `IndexManager::loadIndex` (lines 53-147). -/
def IndexManager.loadIndex (self : IndexManager) (fs : FileSystem) (path : String) :
    Outcome (Except String Unit) :=
  if !fs.exists path then ⟨self, [], .error "Index file does not exist"⟩
  else
    match Map.get? fs.files path with
    | none => ⟨self, [], .error ("Couldn't open file: " ++ filename path)⟩
    | some input =>
      if !input.readable then ⟨self, [], .error ("Couldn't open file: " ++ filename path)⟩
      else
        match input.contents with
        | .error error => ⟨self, [], .error error⟩
        | .ok jsonObj =>
          match IndexMetadata.from_json jsonObj with
          | .error error => ⟨self, [], .error error⟩
          | .ok index =>
            let indexNongs := jsonObj.youtube.foldl (fun indexNongs entry =>
              entry.2.songs.foldl (fun indexNongs gdSongID =>
                addIndexYT indexNongs index.m_id entry.1 entry.2 gdSongID) indexNongs)
              self.m_indexNongs
            let indexNongs := jsonObj.hosted.foldl (fun indexNongs entry =>
              entry.2.songs.foldl (fun indexNongs gdSongID =>
                addIndexHosted indexNongs index.m_id entry.1 entry.2 gdSongID) indexNongs)
              indexNongs
            let self := { self with m_indexNongs := indexNongs }
            let self := { self with
              m_loadedIndexes := Map.emplace self.m_loadedIndexes index.m_id index }
            ⟨self, [Effect.cacheIndexName index.m_id index.m_name], .ok ()⟩

/-- The response of the web request of an index, as far as the task reads it:
`response->ok()`, whether `response->string()` is `Ok`, and what `matjson::parse`
returns on that string. -/
structure WebResponse where
  ok : Bool
  stringOk : Bool
  parsed : Except String IndexDocument
deriving DecidableEq, Repr

/-- The mapping function of the fetch task (lines 168-197): it computes the
value of the task from the response and, on success, writes the document (with
its `url` set) to `filepath`. The argument `canOpen` is `output.is_open()`. -/
def fetchIndexTaskMap (fs : FileSystem) (filepath : String) (index : IndexSource)
    (canOpen : Bool) (response : WebResponse) : FileSystem × Except String Unit :=
  if response.ok && response.stringOk then
    match response.parsed with
    | .error error => (fs, .error error)
    | .ok jsonObj =>
      if !jsonObj.isObject then (fs, .error "Index supposed to be an object")
      else
        let jsonObj := { jsonObj with url := some index.m_url }
        match IndexMetadata.from_json jsonObj with
        | .error error => (fs, .error error)
        | .ok _ =>
          if !canOpen then (fs, .error ("Couldn't open file: " ++ filepath))
          else ({ fs with files := Map.set fs.files filepath ⟨true, .ok jsonObj⟩ }, .ok ())
  else (fs, .error "Web request failed")

/-- An event delivered to an index-fetch listener. -/
inductive FetchEvent where
  | progress (progress : Progress)
  | value (result : Except String Unit)
  | cancelled
deriving DecidableEq, Repr

/-- The handler bound in `fetchIndexes` (lines 204-222): a progress event is
ignored; any other event unregisters the listener, logs, and loads the cache
file, whatever the value of the task was. -/
def FetchIndexListener.handle (l : FetchIndexListener) (self : IndexManager)
    (fs : FileSystem) (event : FetchEvent) : Outcome Unit :=
  match event with
  | .progress _ => ⟨self, [], ()⟩
  | _ =>
    let self := { self with
      m_indexListeners := Map.erase self.m_indexListeners l.index.m_url }
    let loaded := self.loadIndex fs l.filepath
    ⟨loaded.state, loaded.effects, ()⟩

/-- The body of the loop of `fetchIndexes` (lines 160-225): a disabled index or a
URL shorter than three bytes is skipped; otherwise the request is started and
its listener, capturing the index and the cache file path, is registered under
the URL. -/
def registerFetch (saveDir : String) (acc : IndexManager × List Effect) (index : IndexSource) :
    IndexManager × List Effect :=
  if !index.m_enabled || decide (index.m_url.utf8ByteSize < 3) then acc
  else
    let filepath := indexFilePath saveDir index
    let listener : FetchIndexListener := ⟨index, filepath⟩
    ({ acc.1 with
        m_indexListeners := Map.emplace acc.1.m_indexListeners index.m_url listener },
      acc.2 ++ [Effect.webRequest index.m_url])

/-- The method `IndexManager::fetchIndexes` (lines 149-228); `indexes` is the
value `getIndexes` reads from the settings. -/
def IndexManager.fetchIndexes (self : IndexManager) (saveDir : String)
    (indexes : List IndexSource) : Outcome (Except String Unit) :=
  let self := { self with m_indexListeners := [] }
  let self := { self with m_indexNongs := [] }
  let self := { self with m_downloadSongListeners := [] }
  let acc := indexes.foldl (registerFetch saveDir) (self, [])
  ⟨acc.1, acc.2, .ok ()⟩

/-- The outcome of `init`: the usual outcome and the file system it leaves. -/
structure InitOutcome where
  state : IndexManager
  fs : FileSystem
  effects : List Effect
  result : Bool
deriving DecidableEq, Repr

/-- The method `IndexManager::init` (lines 13-37). -/
def IndexManager.init (self : IndexManager) (fs : FileSystem) (saveDir : String)
    (indexes : List IndexSource) : InitOutcome :=
  if self.m_initialized then ⟨self, fs, [], true⟩
  else
    let path := baseIndexesPath saveDir
    if !fs.exists path then
      ⟨self, fs.create_directory path, [Effect.addCustomSetting], true⟩
    else
      let fetched := self.fetchIndexes saveDir indexes
      match fetched.result with
      | .error _ => ⟨fetched.state, fs, [Effect.addCustomSetting] ++ fetched.effects, false⟩
      | .ok _ =>
        let self := { fetched.state with m_initialized := true }
        ⟨self, fs, [Effect.addCustomSetting] ++ fetched.effects, true⟩

/-! ## Runs of the download bookkeeping -/

/-- The operations that touch the download tables. -/
inductive Op where
  | fetchIndexes (saveDir : String) (indexes : List IndexSource)
  | downloadSong (hosted : HostedSong)
  | stopDownloadingSong (gdSongID : Int) (uniqueID : String)
  | listenerEvent (uniqueID : String) (nongManager : NongManager) (replies : StoreReplies)
      (event : DownloadEvent)

/-- One operation. An event for an id reaches the listener registered under that
id; without one there is no handler to run. -/
def IndexManager.step (self : IndexManager) : Op → IndexManager
  | .fetchIndexes saveDir indexes => (self.fetchIndexes saveDir indexes).state
  | .downloadSong hosted => (self.downloadHostedSong hosted).state
  | .stopDownloadingSong gdSongID uniqueID => (self.stopDownloadingSong gdSongID uniqueID).state
  | .listenerEvent uniqueID nongManager replies event =>
    match Map.get? self.m_downloadSongListeners uniqueID with
    | some listener => (listener.handle self nongManager replies event).state
    | none => self

/-- The state reached from the empty manager by a sequence of operations. -/
def IndexManager.run (ops : List Op) : IndexManager := ops.foldl IndexManager.step IndexManager.empty

/-- The bookkeeping a run asks for, read off the operations alone: the progress
last recorded for each id that has a task in flight. A sync pass drops every
task; starting a download records zero; stopping and the end of a task drop the
record; a progress event of a task in flight records its value. -/
def recorded (v : String → Option Progress) : Op → String → Option Progress
  | .fetchIndexes _ _ => fun _ => none
  | .downloadSong hosted => fun u => if u = hosted.metadata.m_uniqueID then some 0 else v u
  | .stopDownloadingSong _ uniqueID => fun u => if u = uniqueID then none else v u
  | .listenerEvent uniqueID _ _ (.progress progress) =>
    fun u => if u = uniqueID then (v uniqueID).map (fun _ => progress) else v u
  | .listenerEvent uniqueID _ _ (.terminal _) => fun u => if u = uniqueID then none else v u

/-- The progress last recorded for each id by a run from the empty manager. -/
def lastRecorded (ops : List Op) : String → Option Progress :=
  ops.foldl recorded (fun _ => none)

/-- The listener `downloadSong(HostedSong&)` registers for `sampleHosted`. -/
def sampleListener : DownloadSongListener := ⟨"h", sampleHosted⟩

/-- A Local Store without any entry. -/
def emptyNongManager : NongManager := ⟨[]⟩

/-! ## Sample data of the index synchronisation -/

/-- Two configured indexes, both enabled, with different URLs. -/
def indexA : IndexSource := ⟨"https://a.example/index.json", true⟩

/-- The second configured index. -/
def indexB : IndexSource := ⟨"https://b.example/index.json", true⟩

/-- An index document declaring the hosted variant `abc` for track 911. -/
def sampleDocument : IndexDocument :=
  { isObject := true
    id := some "idx1"
    name := some "Index"
    url := some "https://a.example/index.json"
    youtube := []
    hosted := [("abc", ⟨[911], "name", "artist", 0, "http://x/y.mp3"⟩)] }

/-- A file system whose cache directory holds the file an earlier successful
fetch wrote. -/
def cachedFileSystem : FileSystem :=
  { directories := ["save", "save/indexes-cache"]
    files := [(indexFilePath "save" indexA, ⟨true, .ok sampleDocument⟩)] }

/-- A file system before the first run: the cache directory does not exist. -/
def freshFileSystem : FileSystem := { directories := ["save"], files := [] }

/-- A response of a request that failed in transport. -/
def failedResponse : WebResponse := ⟨false, false, .error "no response"⟩

/-- The manager after a sync pass over `indexA`. -/
def syncingManager : IndexManager := (IndexManager.empty.fetchIndexes "save" [indexA]).state

/-- The listener the sync pass registers for `indexA`. -/
def listenerOfA : FetchIndexListener := ⟨indexA, indexFilePath "save" indexA⟩

/-- Whether `loadIndex` gets past its checks on a path: the file exists, opens,
parses, and holds the identity fields of an index. -/
def cacheLoads (fs : FileSystem) (path : String) : Bool :=
  fs.exists path &&
    match Map.get? fs.files path with
    | some input =>
      input.readable &&
        (match input.contents with
         | .ok jsonObj => (IndexMetadata.from_json jsonObj).toBool
         | .error _ => false)
    | none => false

/-- The tables agree with the bookkeeping `v`: a registered listener is stored
under its own id and has the progress record `v` names; an id without listener
has no entry in `v`. -/
def Tracks (s : IndexManager) (v : String → Option Progress) : Prop :=
  ∀ u, match Map.get? s.m_downloadSongListeners u with
    | some l => l.id = u ∧ Map.get? s.m_downloadProgress u = v u ∧ (v u).isSome = true
    | none => v u = none
/-! ## Lemmas on the containers -/

theorem Map.contains_iff {κ ν : Type} [DecidableEq κ] (m : Map κ ν) (k : κ) :
    Map.contains m k = true ↔ ∃ v, Map.get? m k = some v := by
  unfold Map.contains
  cases Map.get? m k <;> simp

theorem Map.get?_of_contains {κ ν : Type} [DecidableEq κ] (m : Map κ ν) (k : κ) :
    (if Map.contains m k then Map.get? m k else none) = Map.get? m k := by
  unfold Map.contains
  cases Map.get? m k <;> simp

theorem Map.get?_append_single {κ ν : Type} [DecidableEq κ] (m : Map κ ν) (k k' : κ) (v : ν) :
    Map.get? (m ++ [(k, v)]) k' =
      match Map.get? m k' with
      | some w => some w
      | none => if k = k' then some v else none := by
  induction m with
  | nil => simp [Map.get?]
  | cons p t ih =>
    obtain ⟨a, b⟩ := p
    by_cases h : a = k'
    · simp [Map.get?, h]
    · simp only [List.cons_append, Map.get?, h, if_false]
      exact ih

theorem Map.get?_erase {κ ν : Type} [DecidableEq κ] (m : Map κ ν) (k k' : κ) :
    Map.get? (Map.erase m k) k' = if k' = k then none else Map.get? m k' := by
  induction m with
  | nil => simp [Map.get?, Map.erase]
  | cons p t ih =>
    obtain ⟨a, b⟩ := p
    unfold Map.erase at ih ⊢
    by_cases h : a = k
    · subst h
      simp only [List.filter_cons, ne_eq, not_true_eq_false, decide_False, Bool.false_eq_true,
        if_false, ih, Map.get?]
      by_cases h' : k' = a
      · simp [h']
      · have : ¬ a = k' := fun e => h' e.symm
        simp [h', this]
    · simp only [List.filter_cons, ne_eq, h, not_false_eq_true, decide_True, if_true, Map.get?,
        ih]
      by_cases h' : a = k'
      · subst h'
        simp [h]
      · simp [h']

theorem Map.get?_emplace {κ ν : Type} [DecidableEq κ] (m : Map κ ν) (k k' : κ) (v : ν) :
    Map.get? (Map.emplace m k v) k' =
      match Map.get? m k' with
      | some w => some w
      | none => if k = k' then some v else none := by
  unfold Map.emplace
  by_cases h : Map.contains m k = true
  · rw [if_pos h]
    cases hk : Map.get? m k' with
    | some w => rfl
    | none =>
      by_cases e : k = k'
      · subst e
        unfold Map.contains at h
        rw [hk] at h
        simp at h
      · simp [e]
  · rw [if_neg h]
    exact Map.get?_append_single m k k' v

theorem Map.get?_cons {κ ν : Type} [DecidableEq κ] (a : κ) (b : ν) (t : Map κ ν) (k : κ) :
    Map.get? ((a, b) :: t) k = if a = k then some b else Map.get? t k := rfl

theorem Map.get?_map_set {κ ν : Type} [DecidableEq κ] (m : Map κ ν) (k k' : κ) (v : ν) :
    Map.get? (m.map (fun p => if p.1 = k then (k, v) else p)) k' =
      if k' = k then (Map.get? m k').map (fun _ => v) else Map.get? m k' := by
  induction m with
  | nil => simp [Map.get?]
  | cons p t ih =>
    obtain ⟨a, b⟩ := p
    rw [List.map_cons]
    by_cases h : a = k
    · subst h
      rw [if_pos rfl, Map.get?_cons, Map.get?_cons, ih]
      by_cases h' : a = k'
      · subst h'
        simp
      · have : ¬ k' = a := fun e => h' e.symm
        simp [h', this]
    · rw [if_neg h, Map.get?_cons, Map.get?_cons, ih]
      by_cases h' : a = k'
      · subst h'
        simp [h]
      · simp [h']

theorem Map.get?_set {κ ν : Type} [DecidableEq κ] (m : Map κ ν) (k k' : κ) (v : ν) :
    Map.get? (Map.set m k v) k' = if k' = k then some v else Map.get? m k' := by
  unfold Map.set
  by_cases h : Map.contains m k = true
  · rw [if_pos h, Map.get?_map_set]
    by_cases e : k' = k
    · subst e
      obtain ⟨w, hw⟩ := (Map.contains_iff m k').1 h
      simp [hw]
    · simp [e]
  · rw [if_neg h, Map.get?_append_single]
    by_cases e : k' = k
    · subst e
      unfold Map.contains at h
      cases hk : Map.get? m k' with
      | some w => rw [hk] at h; simp at h
      | none => simp
    · have : ¬ k = k' := fun e' => e e'.symm
      cases hk : Map.get? m k' <;> simp [e, this]

theorem Map.contains_erase {κ ν : Type} [DecidableEq κ] (m : Map κ ν) (k k' : κ) :
    Map.contains (Map.erase m k) k' = if k' = k then false else Map.contains m k' := by
  unfold Map.contains
  rw [Map.get?_erase]
  by_cases e : k' = k <;> simp [e]

theorem Map.contains_emplace {κ ν : Type} [DecidableEq κ] (m : Map κ ν) (k k' : κ) (v : ν) :
    Map.contains (Map.emplace m k v) k' = (Map.contains m k' || decide (k = k')) := by
  unfold Map.contains
  rw [Map.get?_emplace]
  cases Map.get? m k' with
  | some w => simp
  | none => by_cases e : k = k' <;> simp [e]

theorem Map.contains_set {κ ν : Type} [DecidableEq κ] (m : Map κ ν) (k k' : κ) (v : ν) :
    Map.contains (Map.set m k v) k' = if k' = k then true else Map.contains m k' := by
  unfold Map.contains
  rw [Map.get?_set]
  by_cases e : k' = k <;> simp [e]

/-! ## The merge: loops against their declarative reading -/

theorem pushLocals_eq (locals : List LocalSong) (nongs : List Nong) :
    pushLocals locals nongs = nongs ++ locals.map Nong.localSong := by
  unfold pushLocals
  induction locals generalizing nongs with
  | nil => simp
  | cons a t ih => simp [List.foldl_cons, ih]

theorem mem_markYT (song : YTSong) (indexSongs : List YTSong) (added : List String)
    (u : String) :
    u ∈ markYT song indexSongs added ↔
      u ∈ added ∨ (u = song.metadata.m_uniqueID ∧
        ∃ i ∈ indexSongs, i.metadata.m_uniqueID = song.metadata.m_uniqueID) := by
  unfold markYT
  induction indexSongs generalizing added with
  | nil => simp
  | cons a t ih =>
    rw [List.foldl_cons, ih]
    by_cases h : song.metadata.m_uniqueID = a.metadata.m_uniqueID
    · simp only [h, if_true, List.mem_append, List.mem_singleton, List.mem_cons,
        exists_eq_or_imp, true_or, and_true]
      tauto
    · have h' : ¬ a.metadata.m_uniqueID = song.metadata.m_uniqueID := fun e => h e.symm
      simp only [h, if_false, List.mem_cons, exists_eq_or_imp, h', false_or]

theorem mem_markHosted (song : HostedSong) (indexSongs : List HostedSong)
    (added : List String) (u : String) :
    u ∈ markHosted song indexSongs added ↔
      u ∈ added ∨ (u = song.metadata.m_uniqueID ∧
        ∃ i ∈ indexSongs, i.metadata.m_uniqueID = song.metadata.m_uniqueID) := by
  unfold markHosted
  induction indexSongs generalizing added with
  | nil => simp
  | cons a t ih =>
    rw [List.foldl_cons, ih]
    by_cases h : song.metadata.m_uniqueID = a.metadata.m_uniqueID
    · simp only [h, if_true, List.mem_append, List.mem_singleton, List.mem_cons,
        exists_eq_or_imp, true_or, and_true]
      tauto
    · have h' : ¬ a.metadata.m_uniqueID = song.metadata.m_uniqueID := fun e => h e.symm
      simp only [h, if_false, List.mem_cons, exists_eq_or_imp, h', false_or]

theorem pushStoreYT_fst (indexNongs : Option Nongs) (songs : List YTSong)
    (acc : List Nong × List String) :
    (pushStoreYT indexNongs songs acc).1 = acc.1 ++ songs.map Nong.ytSong := by
  unfold pushStoreYT
  induction songs generalizing acc with
  | nil => simp
  | cons a t ih => rw [List.foldl_cons, ih]; simp

theorem pushStoreHosted_fst (indexNongs : Option Nongs) (songs : List HostedSong)
    (acc : List Nong × List String) :
    (pushStoreHosted indexNongs songs acc).1 = acc.1 ++ songs.map Nong.hostedSong := by
  unfold pushStoreHosted
  induction songs generalizing acc with
  | nil => simp
  | cons a t ih => rw [List.foldl_cons, ih]; simp

theorem mem_pushStoreYT_snd (idx : Nongs) (songs : List YTSong)
    (acc : List Nong × List String) (u : String) :
    u ∈ (pushStoreYT (some idx) songs acc).2 ↔
      u ∈ acc.2 ∨ ∃ s ∈ songs, s.indexID.isSome = true ∧ s.metadata.m_uniqueID = u ∧
        ∃ i ∈ idx.youtube, i.metadata.m_uniqueID = u := by
  unfold pushStoreYT
  induction songs generalizing acc with
  | nil => simp
  | cons a t ih =>
    rw [List.foldl_cons, ih]
    by_cases h : a.indexID.isSome = true
    · simp only [h, if_true, mem_markYT, List.mem_cons, exists_eq_or_imp, true_and]
      constructor
      · rintro ((h1 | ⟨h1, h2⟩) | h3)
        · exact Or.inl h1
        · exact Or.inr (Or.inl ⟨h1.symm, by rw [h1]; exact h2⟩)
        · exact Or.inr (Or.inr h3)
      · rintro (h1 | ⟨h1, h2⟩ | h3)
        · exact Or.inl (Or.inl h1)
        · exact Or.inl (Or.inr ⟨h1.symm, by rw [h1]; exact h2⟩)
        · exact Or.inr h3
    · simp only [h, List.mem_cons, exists_eq_or_imp, false_and, false_or]
      simp

theorem mem_pushStoreHosted_snd (idx : Nongs) (songs : List HostedSong)
    (acc : List Nong × List String) (u : String) :
    u ∈ (pushStoreHosted (some idx) songs acc).2 ↔
      u ∈ acc.2 ∨ ∃ s ∈ songs, s.indexID.isSome = true ∧ s.metadata.m_uniqueID = u ∧
        ∃ i ∈ idx.hosted, i.metadata.m_uniqueID = u := by
  unfold pushStoreHosted
  induction songs generalizing acc with
  | nil => simp
  | cons a t ih =>
    rw [List.foldl_cons, ih]
    by_cases h : a.indexID.isSome = true
    · simp only [h, if_true, mem_markHosted, List.mem_cons, exists_eq_or_imp, true_and]
      constructor
      · rintro ((h1 | ⟨h1, h2⟩) | h3)
        · exact Or.inl h1
        · exact Or.inr (Or.inl ⟨h1.symm, by rw [h1]; exact h2⟩)
        · exact Or.inr (Or.inr h3)
      · rintro (h1 | ⟨h1, h2⟩ | h3)
        · exact Or.inl (Or.inl h1)
        · exact Or.inl (Or.inr ⟨h1.symm, by rw [h1]; exact h2⟩)
        · exact Or.inr h3
    · simp only [h, List.mem_cons, exists_eq_or_imp, false_and, false_or]
      simp

theorem pushIndexYT_eq (added : List String) (songs : List YTSong) (nongs : List Nong) :
    pushIndexYT added songs nongs =
      nongs ++ (songs.map Nong.ytSong).filter (fun n => decide (n.uniqueID ∉ added)) := by
  unfold pushIndexYT
  induction songs generalizing nongs with
  | nil => simp
  | cons a t ih =>
    rw [List.foldl_cons, ih]
    by_cases h : a.metadata.m_uniqueID ∈ added
    · simp [h, Nong.uniqueID, Nong.metadata, List.filter_cons]
    · simp [h, Nong.uniqueID, Nong.metadata, List.filter_cons]

theorem pushIndexHosted_eq (added : List String) (songs : List HostedSong)
    (nongs : List Nong) :
    pushIndexHosted added songs nongs =
      nongs ++ (songs.map Nong.hostedSong).filter (fun n => decide (n.uniqueID ∉ added)) := by
  unfold pushIndexHosted
  induction songs generalizing nongs with
  | nil => simp
  | cons a t ih =>
    rw [List.foldl_cons, ih]
    by_cases h : a.metadata.m_uniqueID ∈ added
    · simp [h, Nong.uniqueID, Nong.metadata, List.filter_cons]
    · simp [h, Nong.uniqueID, Nong.metadata, List.filter_cons]

/-- What `markedSameKind` says, as a proposition. -/
theorem markedSameKind_iff (l idx : Nongs) (u : String) :
    markedSameKind l idx u = true ↔
      (∃ s ∈ l.youtube, s.indexID.isSome = true ∧ s.metadata.m_uniqueID = u ∧
          ∃ i ∈ idx.youtube, i.metadata.m_uniqueID = u) ∨
      (∃ s ∈ l.hosted, s.indexID.isSome = true ∧ s.metadata.m_uniqueID = u ∧
          ∃ i ∈ idx.hosted, i.metadata.m_uniqueID = u) := by
  simp [markedSameKind, List.any_eq_true, and_assoc]

/-- The ids collected in `addedIndexSongs` by the two store loops. -/
theorem mem_addedIndexSongs (l idx : Nongs) (nongs : List Nong) (u : String) :
    u ∈ (pushStoreHosted (some idx) l.hosted
          (pushStoreYT (some idx) l.youtube (nongs, []))).2 ↔
      markedSameKind l idx u = true := by
  rw [mem_pushStoreHosted_snd, mem_pushStoreYT_snd, markedSameKind_iff]
  simp

/-- The loops of `getNongs` compute the ordering law with the same-kind restriction. -/
theorem getNongs_eq_resolve (self : IndexManager) (nongManager : NongManager)
    (gdSongID : Int) (localNongs : Nongs)
    (h : nongManager.getNongs gdSongID = some localNongs) :
    self.getNongs nongManager gdSongID =
      .ok (resolveWith markedSameKind localNongs (Map.get? self.m_indexNongs gdSongID)) := by
  unfold IndexManager.getNongs
  rw [h]
  simp only [Map.get?_of_contains]
  cases hidx : Map.get? self.m_indexNongs gdSongID with
  | none =>
    simp [resolveWith, Nongs.variants, pushStoreHosted_fst, pushStoreYT_fst, pushLocals_eq]
  | some idx =>
    simp only [resolveWith, Nongs.variants, Nongs.indexVariants, pushIndexHosted_eq,
      pushIndexYT_eq, pushStoreHosted_fst, pushStoreYT_fst, pushLocals_eq, List.nil_append,
      List.filter_append, List.append_assoc]
    have hf : ∀ n : Nong,
        decide (n.uniqueID ∉ (pushStoreHosted (some idx) localNongs.hosted
          (pushStoreYT (some idx) localNongs.youtube
            ([Nong.localSong localNongs.defaultSong]
              ++ List.map Nong.localSong localNongs.locals, []))).2)
          = !markedSameKind localNongs idx n.uniqueID := by
      intro n
      have := mem_addedIndexSongs localNongs idx
        ([Nong.localSong localNongs.defaultSong]
          ++ List.map Nong.localSong localNongs.locals) n.uniqueID
      cases hm : markedSameKind localNongs idx n.uniqueID
      · simp [hm] at this ⊢; exact this
      · simp [hm] at this ⊢; exact this
    simp only [hf]


theorem markedSameKind_perm (l l' idx idx' : Nongs) (u : String)
    (hy : List.Perm l'.youtube l.youtube) (hh : List.Perm l'.hosted l.hosted)
    (iy : List.Perm idx'.youtube idx.youtube) (ih : List.Perm idx'.hosted idx.hosted) :
    markedSameKind l' idx' u = markedSameKind l idx u := by
  rw [Bool.eq_iff_iff, markedSameKind_iff, markedSameKind_iff]
  simp only [hy.mem_iff, hh.mem_iff, iy.mem_iff, ih.mem_iff]

/-! ## C1: the ordering law -/

/-- C1 (as the code has it): for a track with a Local Store entry, `getNongs`
returns the default, then the store's locals, then the store's streaming and
hosted variants, then the index's streaming and hosted variants in index order
restricted to those whose `uniqueID` was not marked, where only a store streaming
(resp. hosted) variant that carries an `originIndexID` and has an index variant
of the same kind with its `uniqueID` marks it. Permuting the source lists
permutes each segment within itself, and a segment whose own list is unchanged
is unchanged. -/
theorem getNongs_ordering_law (self : IndexManager) (nongManager : NongManager)
    (gdSongID : Int) (localNongs : Nongs)
    (h : nongManager.getNongs gdSongID = some localNongs) :
    self.getNongs nongManager gdSongID = .ok
      ([Nong.localSong localNongs.defaultSong]
        ++ localNongs.locals.map Nong.localSong
        ++ (localNongs.youtube.map Nong.ytSong ++ localNongs.hosted.map Nong.hostedSong)
        ++ (match Map.get? self.m_indexNongs gdSongID with
            | some idx => newYT localNongs idx ++ newHosted localNongs idx
            | none => []))
    ∧ ∀ (l' idx idx' : Nongs),
        List.Perm l'.locals localNongs.locals →
        List.Perm l'.youtube localNongs.youtube →
        List.Perm l'.hosted localNongs.hosted →
        List.Perm idx'.youtube idx.youtube →
        List.Perm idx'.hosted idx.hosted →
        (List.Perm (l'.locals.map Nong.localSong) (localNongs.locals.map Nong.localSong)
          ∧ List.Perm (l'.youtube.map Nong.ytSong) (localNongs.youtube.map Nong.ytSong)
          ∧ List.Perm (l'.hosted.map Nong.hostedSong)
              (localNongs.hosted.map Nong.hostedSong)
          ∧ List.Perm (newYT l' idx') (newYT localNongs idx)
          ∧ List.Perm (newHosted l' idx') (newHosted localNongs idx))
        ∧ (idx'.youtube = idx.youtube → newYT l' idx' = newYT localNongs idx)
        ∧ (idx'.hosted = idx.hosted → newHosted l' idx' = newHosted localNongs idx) := by
  refine ⟨?_, ?_⟩
  · rw [getNongs_eq_resolve self nongManager gdSongID localNongs h]
    cases Map.get? self.m_indexNongs gdSongID with
    | none => simp [resolveWith, Nongs.variants]
    | some idx =>
      simp [resolveWith, Nongs.variants, Nongs.indexVariants, newYT, newHosted,
        List.filter_append]
  · intro l' idx idx' hl hy hh iy ih
    have hm : (fun n : Nong => !markedSameKind l' idx' n.uniqueID)
        = (fun n : Nong => !markedSameKind localNongs idx n.uniqueID) := by
      funext n
      rw [markedSameKind_perm localNongs l' idx idx' n.uniqueID hy hh iy ih]
    refine ⟨⟨hl.map _, hy.map _, hh.map _, ?_, ?_⟩, ?_, ?_⟩
    · unfold newYT
      rw [hm]
      exact (iy.map _).filter _
    · unfold newHosted
      rw [hm]
      exact (ih.map _).filter _
    · intro e
      unfold newYT
      rw [hm, e]
    · intro e
      unfold newHosted
      rw [hm, e]

/-- Witness of C1: the sample store and index of track 911. -/
theorem getNongs_ordering_law_witness :
    sampleNongManager.getNongs 911 = some sampleStore ∧
    sampleManager.getNongs sampleNongManager 911 = .ok
      ([Nong.localSong sampleStore.defaultSong]
        ++ sampleStore.locals.map Nong.localSong
        ++ (sampleStore.youtube.map Nong.ytSong ++ sampleStore.hosted.map Nong.hostedSong)
        ++ (match Map.get? sampleManager.m_indexNongs 911 with
            | some idx => newYT sampleStore idx ++ newHosted sampleStore idx
            | none => [])) :=
  ⟨by decide, (getNongs_ordering_law sampleManager sampleNongManager 911 sampleStore
    (by decide)).1⟩

/-- C1 as written fails: on the sample store and index the code emits the index
copies of `x` and `y`, although a store variant has each of these ids (and the
store copy of `y` carries an index id). Neither reading of "already represented"
gives the list the code returns. -/
theorem getNongs_ordering_law_as_written_fails :
    sampleManager.getNongs sampleNongManager 911
        ≠ .ok (resolveWith representedByStore sampleStore (some sampleIndex))
    ∧ sampleManager.getNongs sampleNongManager 911
        ≠ .ok (resolveWith markedBySpec sampleStore (some sampleIndex)) := by
  decide

/-! ## C2: one default, no repeated `uniqueID` -/

theorem filter_eq_singleton_of_nodup_map {α β : Type} [DecidableEq β] (f : α → β)
    (l : List α) (s : α) (hs : s ∈ l) (hn : (l.map f).Nodup) :
    l.filter (fun n => f n == f s) = [s] := by
  induction l with
  | nil => simp at hs
  | cons a t ih =>
    rw [List.map_cons, List.nodup_cons] at hn
    rcases List.mem_cons.1 hs with rfl | hs'
    · have : t.filter (fun n => f n == f s) = [] := by
        rw [List.filter_eq_nil_iff]
        intro n hn' hfn
        apply hn.1
        have e : f n = f s := by simpa using hfn
        rw [← e]
        exact List.mem_map_of_mem f hn'
      simp [List.filter_cons, this]
    · have hne : ¬ f a = f s := by
        intro e
        apply hn.1
        rw [e]
        exact List.mem_map_of_mem f hs'
      simp [List.filter_cons, hne, ih hs' hn.2]

/-- C2 (as the code has it): for a track with a Local Store entry whose variants
have pairwise distinct `uniqueID`s and whose index variants have pairwise
distinct `uniqueID`s, if every `uniqueID` shared between a store variant and an
index variant is one the code marks (the store variant is streaming or hosted,
carries an `originIndexID`, and the index has a variant of the same kind with
that id), then the list `getNongs` returns contains the default exactly once and
no two elements with the same `uniqueID`. -/
theorem getNongs_unique_ids (self : IndexManager) (nongManager : NongManager)
    (gdSongID : Int) (localNongs : Nongs)
    (h : nongManager.getNongs gdSongID = some localNongs)
    (hstore : (localNongs.variants.map Nong.uniqueID).Nodup)
    (hindex : ∀ idx, Map.get? self.m_indexNongs gdSongID = some idx →
      (idx.indexVariants.map Nong.uniqueID).Nodup)
    (hshared : ∀ idx, Map.get? self.m_indexNongs gdSongID = some idx →
      ∀ n ∈ idx.indexVariants, n.uniqueID ∈ localNongs.variants.map Nong.uniqueID →
        markedSameKind localNongs idx n.uniqueID = true) :
    ∃ l, self.getNongs nongManager gdSongID = .ok l
      ∧ l.count (Nong.localSong localNongs.defaultSong) = 1
      ∧ (l.map Nong.uniqueID).Nodup := by
  refine ⟨_, getNongs_eq_resolve self nongManager gdSongID localNongs h, ?_, ?_⟩
  · have hdef : Nong.localSong localNongs.defaultSong ∈ localNongs.variants := by
      simp [Nongs.variants]
    have h1 : localNongs.variants.count (Nong.localSong localNongs.defaultSong) = 1 :=
      List.count_eq_one_of_mem (List.Nodup.of_map _ hstore) hdef
    unfold resolveWith
    rw [List.count_append, h1]
    cases hidx : Map.get? self.m_indexNongs gdSongID with
    | none => simp
    | some idx =>
      simp only [Nat.add_right_eq_self]
      apply List.count_eq_zero_of_not_mem
      intro hmem
      rw [List.mem_filter] at hmem
      have hm := hshared idx hidx _ hmem.1 (List.mem_map_of_mem _ hdef)
      simp [hm] at hmem
  · unfold resolveWith
    rw [List.map_append, List.nodup_append]
    refine ⟨hstore, ?_, ?_⟩
    · cases hidx : Map.get? self.m_indexNongs gdSongID with
      | none => simp
      | some idx =>
        exact (hindex idx hidx).sublist ((List.filter_sublist _).map _)
    · cases hidx : Map.get? self.m_indexNongs gdSongID with
      | none => simp [List.Disjoint]
      | some idx =>
        intro u hu hu'
        simp only [List.mem_map, List.mem_filter] at hu'
        obtain ⟨n, ⟨hn, hnm⟩, rfl⟩ := hu'
        have hm := hshared idx hidx n hn hu
        simp [hm] at hnm

/-- Witness of C2: a store whose streaming variant `x` came from the index that
declares `x`. -/
theorem getNongs_unique_ids_witness :
    ∃ l, managerOfX.getNongs syncedNongManager 911 = .ok l
      ∧ l.count (Nong.localSong syncedStore.defaultSong) = 1
      ∧ (l.map Nong.uniqueID).Nodup :=
  getNongs_unique_ids managerOfX syncedNongManager 911 syncedStore (by decide) (by decide)
    (by
      intro idx hidx
      have e : idx = indexOfX := by
        have : Map.get? managerOfX.m_indexNongs 911 = some indexOfX := by decide
        rw [this] at hidx
        exact (Option.some.inj hidx).symm
      subst e
      decide)
    (by
      intro idx hidx
      have e : idx = indexOfX := by
        have : Map.get? managerOfX.m_indexNongs 911 = some indexOfX := by decide
        rw [this] at hidx
        exact (Option.some.inj hidx).symm
      subst e
      decide)

/-- C2 as written fails: the store's variants `d`, `x` have distinct ids and so
has the index's variant `x`, yet the returned list holds the user's streaming
variant `x` and the index's streaming variant `x`. -/
theorem getNongs_unique_ids_as_written_fails :
    (userStore.variants.map Nong.uniqueID).Nodup
    ∧ (indexOfX.indexVariants.map Nong.uniqueID).Nodup
    ∧ ∃ l, managerOfX.getNongs userNongManager 911 = .ok l
        ∧ ¬ (l.map Nong.uniqueID).Nodup :=
  ⟨by decide, by decide, _, rfl, by decide⟩

/-! ## C3: local precedence -/

/-- C3 (as the code has it): if a streaming (resp. hosted) variant of the store
entry that carries an `originIndexID` and a streaming (resp. hosted) index
variant of the track both have `uniqueID` `u`, then every element of the list
`getNongs` returns with that id is a store copy, none is an index copy; when the
store's `uniqueID`s are pairwise distinct there is exactly one such element. -/
theorem getNongs_local_precedence (self : IndexManager) (nongManager : NongManager)
    (gdSongID : Int) (localNongs idx : Nongs) (u : String)
    (h : nongManager.getNongs gdSongID = some localNongs)
    (hidx : Map.get? self.m_indexNongs gdSongID = some idx)
    (hmark :
      (∃ s ∈ localNongs.youtube, s.indexID.isSome = true ∧ s.metadata.m_uniqueID = u ∧
          ∃ i ∈ idx.youtube, i.metadata.m_uniqueID = u) ∨
      (∃ s ∈ localNongs.hosted, s.indexID.isSome = true ∧ s.metadata.m_uniqueID = u ∧
          ∃ i ∈ idx.hosted, i.metadata.m_uniqueID = u)) :
    ∃ l, self.getNongs nongManager gdSongID = .ok l
      ∧ l.filter (fun n => n.uniqueID == u)
          = localNongs.variants.filter (fun n => n.uniqueID == u)
      ∧ ((localNongs.variants.map Nong.uniqueID).Nodup →
          ∃ s ∈ localNongs.variants, l.filter (fun n => n.uniqueID == u) = [s]) := by
  have hm : markedSameKind localNongs idx u = true := (markedSameKind_iff _ _ _).2 hmark
  have hfil : (resolveWith markedSameKind localNongs
        (Map.get? self.m_indexNongs gdSongID)).filter (fun n => n.uniqueID == u)
      = localNongs.variants.filter (fun n => n.uniqueID == u) := by
    rw [hidx]
    unfold resolveWith
    rw [List.filter_append]
    have : (idx.indexVariants.filter
        (fun n => !markedSameKind localNongs idx n.uniqueID)).filter
          (fun n => n.uniqueID == u) = [] := by
      rw [List.filter_eq_nil_iff]
      intro n hn hnu
      have e : n.uniqueID = u := by simpa using hnu
      rw [List.mem_filter, e, hm] at hn
      simp at hn
    rw [this, List.append_nil]
  refine ⟨_, getNongs_eq_resolve self nongManager gdSongID localNongs h, hfil, ?_⟩
  intro hnd
  rw [hfil]
  have hex : ∃ s ∈ localNongs.variants, s.uniqueID = u := by
    rcases hmark with ⟨s, hs, _, hu, _⟩ | ⟨s, hs, _, hu, _⟩
    · exact ⟨Nong.ytSong s, by simp [Nongs.variants, hs], hu⟩
    · exact ⟨Nong.hostedSong s, by simp [Nongs.variants, hs], hu⟩
  obtain ⟨s, hs, hu⟩ := hex
  refine ⟨s, hs, ?_⟩
  rw [← hu]
  exact filter_eq_singleton_of_nodup_map Nong.uniqueID _ s hs hnd

/-- Witness of C3: the store copy of `x` came from the index that declares `x`. -/
theorem getNongs_local_precedence_witness :
    ∃ l, managerOfX.getNongs syncedNongManager 911 = .ok l
      ∧ l.filter (fun n => n.uniqueID == "x")
          = syncedStore.variants.filter (fun n => n.uniqueID == "x")
      ∧ ((syncedStore.variants.map Nong.uniqueID).Nodup →
          ∃ s ∈ syncedStore.variants, l.filter (fun n => n.uniqueID == "x") = [s]) :=
  getNongs_local_precedence managerOfX syncedNongManager 911 syncedStore indexOfX "x"
    (by decide) (by decide) (Or.inl (by decide))

/-- C3 as written fails: the user's streaming variant `x` (no `originIndexID`)
and the index's streaming variant `x` share their id, and the returned list
holds two elements with that id, the second being the index copy. -/
theorem getNongs_local_precedence_as_written_fails :
    (∃ s ∈ userStore.variants, s.uniqueID = "x")
    ∧ (∃ i ∈ indexOfX.indexVariants, i.uniqueID = "x")
    ∧ ∃ l, managerOfX.getNongs userNongManager 911 = .ok l
        ∧ (l.filter (fun n => n.uniqueID == "x")).length = 2
        ∧ Nong.ytSong ⟨sampleMeta "x", "yt-x", some "idx1", none⟩ ∈ l :=
  ⟨by decide, by decide, _, rfl, by decide, by decide⟩

/-! ## C4: dispatch of `downloadSong(gdSongID, uniqueID)` -/

theorem downloadLoop_eq (self : IndexManager) (uniqueID : String) (nongs : List Nong) :
    self.downloadLoop uniqueID nongs =
      (nongs.find? (fun n => n.uniqueID == uniqueID)).map self.visitForDownload := by
  induction nongs with
  | nil => rfl
  | cons a t ih =>
    unfold IndexManager.downloadLoop
    by_cases h : a.metadata.m_uniqueID = uniqueID
    · simp [h, Nong.uniqueID, List.find?_cons]
    · simp [h, Nong.uniqueID, List.find?_cons, ih]

theorem downloadHostedSong_registers (self : IndexManager) (hosted : HostedSong) :
    Map.get? (self.downloadHostedSong hosted).state.m_downloadSongListeners
        hosted.metadata.m_uniqueID = some ⟨hosted.metadata.m_uniqueID, hosted⟩
    ∧ Map.get? (self.downloadHostedSong hosted).state.m_downloadProgress
        hosted.metadata.m_uniqueID = some 0 := by
  unfold IndexManager.downloadHostedSong
  simp [Map.get?_emplace, Map.get?_erase, Map.get?_set]

/-- C4 (as the code has it): `downloadSong(T, u)` fails with the not-initialized
error and no effect when `getNongs(T)` fails; otherwise it fails with the
not-found error when `getNongs(T)` contains no variant of any kind with
`uniqueID` `u`, fails with the unsupported-type error when the first variant
with that id is Local or Streaming, and when it is Hosted behaves as
`downloadSong(HostedSong)`, which registers a listener and a zero progress
record for `u`. In the failing cases the manager state is unchanged and nothing
is posted; a success, an effect or a state change occurs only when the matched
variant is Hosted. -/
theorem downloadSong_dispatch (self : IndexManager) (nongManager : NongManager)
    (gdSongID : Int) (uniqueID : String) :
    (∀ e, self.getNongs nongManager gdSongID = .error e →
      self.downloadSong nongManager gdSongID uniqueID =
        ⟨self, [], .error ("GD song " ++ toString gdSongID ++ " not initialized in manifest")⟩)
    ∧ ∀ nongs, self.getNongs nongManager gdSongID = .ok nongs →
      ((∀ n ∈ nongs, n.uniqueID ≠ uniqueID) →
        self.downloadSong nongManager gdSongID uniqueID =
          ⟨self, [], .error ("Song " ++ uniqueID ++ " not found in manifest")⟩)
      ∧ (∀ n, nongs.find? (fun n => n.uniqueID == uniqueID) = some n →
          (n.isHosted = false →
            self.downloadSong nongManager gdSongID uniqueID =
              ⟨self, [], .error "Song type not supported for download"⟩)
          ∧ (∀ hosted, n = Nong.hostedSong hosted →
              self.downloadSong nongManager gdSongID uniqueID
                = self.downloadHostedSong hosted
              ∧ (self.downloadSong nongManager gdSongID uniqueID).result = .ok ()
              ∧ Map.get? (self.downloadSong nongManager gdSongID uniqueID).state.m_downloadSongListeners uniqueID = some ⟨uniqueID, hosted⟩
              ∧ Map.get? (self.downloadSong nongManager gdSongID uniqueID).state.m_downloadProgress uniqueID = some 0))
      ∧ (((self.downloadSong nongManager gdSongID uniqueID).result = .ok ()
            ∨ (self.downloadSong nongManager gdSongID uniqueID).effects ≠ []
            ∨ (self.downloadSong nongManager gdSongID uniqueID).state ≠ self) →
          ∃ hosted, nongs.find? (fun n => n.uniqueID == uniqueID)
            = some (Nong.hostedSong hosted)) := by
  refine ⟨?_, ?_⟩
  · intro e he
    unfold IndexManager.downloadSong
    rw [he]
  · intro nongs hn
    have hds : self.downloadSong nongManager gdSongID uniqueID =
        match (nongs.find? (fun n => n.uniqueID == uniqueID)).map self.visitForDownload with
        | some outcome => outcome
        | none => ⟨self, [], .error ("Song " ++ uniqueID ++ " not found in manifest")⟩ := by
      unfold IndexManager.downloadSong
      rw [hn]
      simp only [downloadLoop_eq]
    refine ⟨?_, ?_, ?_⟩
    · intro hall
      have : nongs.find? (fun n => n.uniqueID == uniqueID) = none := by
        rw [List.find?_eq_none]
        intro n hmem
        simpa using hall n hmem
      rw [hds, this]
      rfl
    · intro n hfind
      have huid : n.uniqueID = uniqueID := by
        have := List.find?_some hfind
        simpa using this
      rw [hds, hfind]
      refine ⟨?_, ?_⟩
      · intro hk
        cases n with
        | localSong s => rfl
        | ytSong s => rfl
        | hostedSong s => simp [Nong.isHosted] at hk
      · intro hosted hh
        subst hh
        have hu : hosted.metadata.m_uniqueID = uniqueID := huid
        have hreg := downloadHostedSong_registers self hosted
        rw [hu] at hreg
        exact ⟨rfl, rfl, hreg.1, hreg.2⟩
    · intro hor
      rw [hds] at hor
      cases hfind : nongs.find? (fun n => n.uniqueID == uniqueID) with
      | none =>
        rw [hfind] at hor
        simp at hor
      | some n =>
        rw [hfind] at hor
        cases n with
        | localSong s => simp [IndexManager.visitForDownload] at hor
        | ytSong s => simp [IndexManager.visitForDownload] at hor
        | hostedSong s => exact ⟨s, rfl⟩

/-- Witness of C4: downloading the hosted variant `h` of the sample store. -/
theorem downloadSong_dispatch_witness :
    IndexManager.empty.downloadSong hostedNongManager 911 "h"
        = IndexManager.empty.downloadHostedSong sampleHosted
    ∧ (IndexManager.empty.downloadSong hostedNongManager 911 "h").result = .ok ()
    ∧ Map.get? (IndexManager.empty.downloadSong hostedNongManager 911 "h").state.m_downloadSongListeners "h" = some ⟨"h", sampleHosted⟩
    ∧ Map.get? (IndexManager.empty.downloadSong hostedNongManager 911 "h").state.m_downloadProgress "h" = some 0 :=
  (((downloadSong_dispatch IndexManager.empty hostedNongManager 911 "h").2
    [Nong.localSong hostedStore.defaultSong, Nong.hostedSong sampleHosted] (by decide)).2.1
    (Nong.hostedSong sampleHosted) (by decide)).2 sampleHosted rfl

/-- C4 as written fails: the list `getNongs(911)` holds no Hosted variant with the
default's id `d`, yet `downloadSong(911, d)` fails with the unsupported-type
error, not with the not-found error. -/
theorem downloadSong_as_written_fails :
    ∃ nongs, IndexManager.empty.getNongs hostedNongManager 911 = .ok nongs
      ∧ (∀ n ∈ nongs, ¬ (n.isHosted = true ∧ n.uniqueID = "d"))
      ∧ (IndexManager.empty.downloadSong hostedNongManager 911 "d").result
          = .error "Song type not supported for download"
      ∧ (IndexManager.empty.downloadSong hostedNongManager 911 "d").result
          ≠ .error ("Song " ++ "d" ++ " not found in manifest") :=
  ⟨_, rfl, by decide, by decide, by decide⟩

/-! ## C5: `stopDownloadingSong` -/

/-- C5: `stopDownloadingSong(T, u)` returns an error iff no download listener is
registered for `u`, and then the manager state is unchanged and nothing is
posted; otherwise it returns success, the listener table and the progress table
lose `u` and keep every other key, no other field changes, and the one effect is
posting `SongStateChanged{T}`. -/
theorem stopDownloadingSong_spec (self : IndexManager) (gdSongID : Int) (uniqueID : String) :
    ((∃ e, (self.stopDownloadingSong gdSongID uniqueID).result = .error e) ↔
        Map.contains self.m_downloadSongListeners uniqueID = false)
    ∧ (Map.contains self.m_downloadSongListeners uniqueID = false →
        (self.stopDownloadingSong gdSongID uniqueID).state = self
        ∧ (self.stopDownloadingSong gdSongID uniqueID).effects = [])
    ∧ (Map.contains self.m_downloadSongListeners uniqueID = true →
        (self.stopDownloadingSong gdSongID uniqueID).result = .ok ()
        ∧ (∀ k, Map.get? (self.stopDownloadingSong gdSongID uniqueID).state.m_downloadSongListeners k
            = if k = uniqueID then none else Map.get? self.m_downloadSongListeners k)
        ∧ (∀ k, Map.get? (self.stopDownloadingSong gdSongID uniqueID).state.m_downloadProgress k
            = if k = uniqueID then none else Map.get? self.m_downloadProgress k)
        ∧ (self.stopDownloadingSong gdSongID uniqueID).effects
            = [Effect.post (Event.SongStateChanged gdSongID)]
        ∧ (self.stopDownloadingSong gdSongID uniqueID).state.m_initialized
            = self.m_initialized
        ∧ (self.stopDownloadingSong gdSongID uniqueID).state.m_indexListeners
            = self.m_indexListeners
        ∧ (self.stopDownloadingSong gdSongID uniqueID).state.m_indexNongs
            = self.m_indexNongs
        ∧ (self.stopDownloadingSong gdSongID uniqueID).state.m_loadedIndexes
            = self.m_loadedIndexes) := by
  unfold IndexManager.stopDownloadingSong
  by_cases h : Map.contains self.m_downloadSongListeners uniqueID = true
  · simp [h, Map.get?_erase]
  · simp [h]

/-- Witness of C5: stopping the download of `h` while it is in flight. -/
theorem stopDownloadingSong_spec_witness :
    Map.contains downloadingManager.m_downloadSongListeners "h" = true
    ∧ (downloadingManager.stopDownloadingSong 911 "h").result = .ok ()
    ∧ (downloadingManager.stopDownloadingSong 911 "h").effects
        = [Effect.post (Event.SongStateChanged 911)] :=
  ⟨by decide,
   ((stopDownloadingSong_spec downloadingManager 911 "h").2.2 (by decide)).1,
   ((stopDownloadingSong_spec downloadingManager 911 "h").2.2 (by decide)).2.2.2.1⟩

/-! ## C6: every registered listener has a progress record -/

theorem registerFetch_download_tables (saveDir : String) (indexes : List IndexSource)
    (acc : IndexManager × List Effect) :
    (indexes.foldl (registerFetch saveDir) acc).1.m_downloadSongListeners
        = acc.1.m_downloadSongListeners
    ∧ (indexes.foldl (registerFetch saveDir) acc).1.m_downloadProgress
        = acc.1.m_downloadProgress := by
  induction indexes generalizing acc with
  | nil => exact ⟨rfl, rfl⟩
  | cons a t ih =>
    rw [List.foldl_cons]
    have hstep : (registerFetch saveDir acc a).1.m_downloadSongListeners
          = acc.1.m_downloadSongListeners
        ∧ (registerFetch saveDir acc a).1.m_downloadProgress = acc.1.m_downloadProgress := by
      unfold registerFetch
      by_cases hc : (!a.m_enabled || decide (a.m_url.utf8ByteSize < 3)) = true
      · rw [if_pos hc]; exact ⟨rfl, rfl⟩
      · rw [if_neg hc]; exact ⟨rfl, rfl⟩
    rw [(ih _).1, (ih _).2]
    exact hstep

theorem fetchIndexes_download_tables (self : IndexManager) (saveDir : String)
    (indexes : List IndexSource) :
    (self.fetchIndexes saveDir indexes).state.m_downloadSongListeners = []
    ∧ (self.fetchIndexes saveDir indexes).state.m_downloadProgress = self.m_downloadProgress := by
  unfold IndexManager.fetchIndexes
  simp only
  rw [(registerFetch_download_tables saveDir indexes _).1,
    (registerFetch_download_tables saveDir indexes _).2]
  exact ⟨rfl, rfl⟩

theorem handle_terminal_state (l : DownloadSongListener) (self : IndexManager)
    (nongManager : NongManager) (replies : StoreReplies) (ending : DownloadEnd) :
    (l.handle self nongManager replies (.terminal ending)).state =
      { self with
        m_downloadProgress := Map.erase self.m_downloadProgress l.id
        m_downloadSongListeners := Map.erase self.m_downloadSongListeners l.id } := by
  unfold DownloadSongListener.handle
  cases ending with
  | cancelled => rfl
  | value result =>
    cases result with
    | error e => rfl
    | ok destination =>
      simp only
      cases deleteStep nongManager l.hosted l.id with
      | error e => rfl
      | ok deleted =>
        simp only
        cases replies.addNongs with
        | error e => rfl
        | ok _ =>
          simp only
          cases replies.setActiveSong <;> rfl

theorem tracks_step (s : IndexManager) (v : String → Option Progress) (op : Op)
    (h : Tracks s v) : Tracks (s.step op) (recorded v op) := by
  intro u
  have hu := h u
  cases op with
  | fetchIndexes saveDir indexes =>
    simp only [IndexManager.step, recorded]
    rw [(fetchIndexes_download_tables s saveDir indexes).1]
    simp [Map.get?]
  | downloadSong hosted =>
    simp only [IndexManager.step, recorded, IndexManager.downloadHostedSong,
      Map.get?_emplace, Map.get?_erase, Map.get?_set]
    by_cases e : u = hosted.metadata.m_uniqueID
    · subst e
      simp
    · have e' : ¬ hosted.metadata.m_uniqueID = u := fun x => e x.symm
      simp only [e, if_false, e']
      cases hl : Map.get? s.m_downloadSongListeners u with
      | none => rw [hl] at hu; simpa using hu
      | some l => rw [hl] at hu; simpa using hu
  | stopDownloadingSong gdSongID uniqueID =>
    simp only [IndexManager.step, recorded, IndexManager.stopDownloadingSong]
    by_cases hc : Map.contains s.m_downloadSongListeners uniqueID = true
    · simp only [hc, if_true, Map.get?_erase]
      by_cases e : u = uniqueID
      · simp [e]
      · simp only [e, if_false]
        exact hu
    · simp only [hc]
      by_cases e : u = uniqueID
      · subst e
        have hn : Map.get? s.m_downloadSongListeners u = none := by
          unfold Map.contains at hc
          cases hg : Map.get? s.m_downloadSongListeners u with
          | none => rfl
          | some l => rw [hg] at hc; simp at hc
        simp [hn]
      · simp only [e, if_false]
        exact hu
  | listenerEvent uniqueID nongManager replies event =>
    have hk := h uniqueID
    simp only [IndexManager.step]
    cases hl : Map.get? s.m_downloadSongListeners uniqueID with
    | none =>
      rw [hl] at hk
      simp only at hk
      cases event with
      | progress p =>
        simp only [recorded]
        by_cases e : u = uniqueID
        · subst e
          simp [hl, hk]
        · simp only [e, if_false]; exact hu
      | terminal ending =>
        simp only [recorded]
        by_cases e : u = uniqueID
        · subst e
          simp [hl]
        · simp only [e, if_false]; exact hu
    | some l =>
      rw [hl] at hk
      simp only at hk
      obtain ⟨hid, hp, hs⟩ := hk
      cases event with
      | progress p =>
        simp only [recorded, DownloadSongListener.handle, Map.get?_set, hid]
        by_cases e : u = uniqueID
        · subst e
          obtain ⟨w, hw⟩ := Option.isSome_iff_exists.1 hs
          simp [hl, hid, hw]
        · simp only [e, if_false]; exact hu
      | terminal ending =>
        simp only [handle_terminal_state, recorded, Map.get?_erase, hid]
        by_cases e : u = uniqueID
        · simp [e]
        · simp only [e, if_false]; exact hu

theorem tracks_foldl (ops : List Op) (s : IndexManager) (v : String → Option Progress)
    (h : Tracks s v) : Tracks (ops.foldl IndexManager.step s) (ops.foldl recorded v) := by
  induction ops generalizing s v with
  | nil => exact h
  | cons op t ih => exact ih _ _ (tracks_step s v op h)

theorem tracks_run (ops : List Op) : Tracks (IndexManager.run ops) (lastRecorded ops) := by
  apply tracks_foldl
  intro u
  rfl

theorem getSongDownloadProgress_of_tracks (s : IndexManager) (v : String → Option Progress)
    (h : Tracks s v) (u : String) : s.getSongDownloadProgress u = .ok (v u) := by
  have hu := h u
  unfold IndexManager.getSongDownloadProgress Map.contains
  cases hl : Map.get? s.m_downloadSongListeners u with
  | none => rw [hl] at hu; simp [hu]
  | some l =>
    rw [hl] at hu
    obtain ⟨_, hp, hs⟩ := hu
    obtain ⟨w, hw⟩ := Option.isSome_iff_exists.1 hs
    rw [hw] at hp
    simp [hp, hw]

/-- C6: in every state reached from the empty manager by `fetchIndexes`,
`downloadSong(HostedSong)`, `stopDownloadingSong` and download-listener events,
every id with a registered download listener has a progress record;
`getSongDownloadProgress(u)` never raises the missing-key failure and returns
the progress last recorded for `u`, which is present exactly when a listener is
registered for `u`; right after `downloadSong(hosted)` it returns zero for the
id of `hosted`. -/
theorem getSongDownloadProgress_reachable (ops : List Op) (u : String) :
    (Map.contains (IndexManager.run ops).m_downloadSongListeners u = true →
      Map.contains (IndexManager.run ops).m_downloadProgress u = true)
    ∧ (IndexManager.run ops).getSongDownloadProgress u = .ok (lastRecorded ops u)
    ∧ ((lastRecorded ops u).isSome = Map.contains (IndexManager.run ops).m_downloadSongListeners u)
    ∧ (Map.contains (IndexManager.run ops).m_downloadSongListeners u = true →
        (IndexManager.run ops).getSongDownloadProgress u
          = .ok (Map.get? (IndexManager.run ops).m_downloadProgress u))
    ∧ ∀ hosted, (IndexManager.run (ops ++ [Op.downloadSong hosted])).getSongDownloadProgress
        hosted.metadata.m_uniqueID = .ok (some 0) := by
  have ht := tracks_run ops
  have hu := ht u
  refine ⟨?_, getSongDownloadProgress_of_tracks _ _ ht u, ?_, ?_, ?_⟩
  · intro hc
    unfold Map.contains at hc ⊢
    cases hl : Map.get? (IndexManager.run ops).m_downloadSongListeners u with
    | none => rw [hl] at hc; simp at hc
    | some l =>
      rw [hl] at hu
      rw [hu.2.1]
      exact hu.2.2
  · unfold Map.contains
    cases hl : Map.get? (IndexManager.run ops).m_downloadSongListeners u with
    | none => rw [hl] at hu; simp [hu]
    | some l => rw [hl] at hu; simp [hu.2.2]
  · intro hc
    rw [getSongDownloadProgress_of_tracks _ _ ht u]
    unfold Map.contains at hc
    cases hl : Map.get? (IndexManager.run ops).m_downloadSongListeners u with
    | none => rw [hl] at hc; simp at hc
    | some l => rw [hl] at hu; rw [hu.2.1]
  · intro hosted
    rw [getSongDownloadProgress_of_tracks _ _ (tracks_run _)]
    simp [lastRecorded, recorded]

/-- Witness of C6: a download of `h` that reported progress one, after a sync
pass and an earlier download that was stopped. -/
theorem getSongDownloadProgress_reachable_witness :
    Map.contains (IndexManager.run
        [Op.downloadSong sampleHosted, Op.stopDownloadingSong 911 "h",
         Op.fetchIndexes "save" [], Op.downloadSong sampleHosted,
         Op.listenerEvent "h" hostedNongManager ⟨.ok (), .ok ()⟩ (.progress 1)]
      ).m_downloadSongListeners "h" = true
    ∧ (IndexManager.run
        [Op.downloadSong sampleHosted, Op.stopDownloadingSong 911 "h",
         Op.fetchIndexes "save" [], Op.downloadSong sampleHosted,
         Op.listenerEvent "h" hostedNongManager ⟨.ok (), .ok ()⟩ (.progress 1)]
      ).getSongDownloadProgress "h" = .ok (some 1) :=
  ⟨by decide,
   ((getSongDownloadProgress_reachable
        [Op.downloadSong sampleHosted, Op.stopDownloadingSong 911 "h",
         Op.fetchIndexes "save" [], Op.downloadSong sampleHosted,
         Op.listenerEvent "h" hostedNongManager ⟨.ok (), .ok ()⟩ (.progress 1)] "h").2.1).trans
     (by rfl)⟩

/-! ## C7: the download listener -/

/-- A progress event records the value and posts only `SongDownloadProgress`. -/
theorem handle_progress (l : DownloadSongListener) (self : IndexManager)
    (nongManager : NongManager) (replies : StoreReplies) (progress : Progress) :
    (l.handle self nongManager replies (.progress progress)).effects
        = [Effect.post (Event.SongDownloadProgress l.hosted.metadata.m_gdID l.id progress)]
    ∧ (l.handle self nongManager replies (.progress progress)).thrown = none
    ∧ (l.handle self nongManager replies (.progress progress)).state
        = { self with m_downloadProgress := Map.set self.m_downloadProgress l.id progress } :=
  ⟨rfl, rfl, rfl⟩

/-- Cancellation and a transport error remove the records of the task and post
`SongStateChanged` of the track, nothing else. -/
theorem handle_cancelled_or_error (l : DownloadSongListener) (self : IndexManager)
    (nongManager : NongManager) (replies : StoreReplies) (ending : DownloadEnd)
    (h : ending = .cancelled ∨ ∃ e, ending = .value (.error e)) :
    (l.handle self nongManager replies (.terminal ending)).effects
        = [Effect.post (Event.SongStateChanged l.hosted.metadata.m_gdID)]
    ∧ (l.handle self nongManager replies (.terminal ending)).thrown = none := by
  rcases h with rfl | ⟨e, rfl⟩ <;> exact ⟨rfl, rfl⟩

/-- When the store lookup of lines 385-387 finds the track (or is not made), the
handler of a terminal event runs to its end: the records of the task are removed,
exactly one `SongStateChanged` is posted, it is the one of the track and it is
the last effect. -/
theorem handle_terminal_completes (l : DownloadSongListener) (self : IndexManager)
    (nongManager : NongManager) (replies : StoreReplies) (ending : DownloadEnd)
    (h : l.hosted.indexID.isSome = true
      ∨ (nongManager.getNongs l.hosted.metadata.m_gdID).isSome = true) :
    (l.handle self nongManager replies (.terminal ending)).thrown = none
    ∧ (l.handle self nongManager replies (.terminal ending)).effects.getLast?
        = some (Effect.post (Event.SongStateChanged l.hosted.metadata.m_gdID))
    ∧ ((l.handle self nongManager replies (.terminal ending)).effects.filter
        Effect.isAnyStateChanged).length = 1
    ∧ Map.get? (l.handle self nongManager replies (.terminal ending)).state.m_downloadProgress
        l.id = none
    ∧ Map.get? (l.handle self nongManager replies
        (.terminal ending)).state.m_downloadSongListeners l.id = none := by
  have hstate := handle_terminal_state l self nongManager replies ending
  refine ⟨?_, ?_, ?_, ?_, ?_⟩
  on_goal 4 => rw [hstate]; simp [Map.get?_erase]
  on_goal 4 => rw [hstate]; simp [Map.get?_erase]
  all_goals
    have hdel : ∃ d, deleteStep nongManager l.hosted l.id = .ok d
        ∧ d.filter Effect.isAnyStateChanged = [] := by
      unfold deleteStep
      rcases h with h | h
      · simp [h]
      · obtain ⟨w, hw⟩ := Option.isSome_iff_exists.1 h
        by_cases hi : l.hosted.indexID.isSome = true
        · simp [hi]
        · simp [hi, hw, Effect.isAnyStateChanged]
    obtain ⟨d, hd, hdf⟩ := hdel
    unfold DownloadSongListener.handle
    cases ending with
    | cancelled => simp [Effect.isAnyStateChanged]
    | value result =>
      cases result with
      | error e => simp [Effect.isAnyStateChanged]
      | ok destination =>
        simp only [hd]
        cases replies.addNongs with
        | error e => simp [Effect.isAnyStateChanged, List.filter_append, hdf]
        | ok _ =>
          cases replies.setActiveSong <;>
            simp [Effect.isAnyStateChanged, List.filter_append, hdf]

/-- C7, the failing run: a download of the user's hosted variant `h` of track 911
succeeds while the Local Store has no entry for the track. The handler removes
the records of the task and is then ended by the failed `.value()` of line 386:
no `SongStateChanged` is posted. -/
theorem handle_success_without_store_entry :
    (sampleListener.handle downloadingManager emptyNongManager ⟨.ok (), .ok ()⟩
        (.terminal (.value (.ok "song.mp3")))).thrown = some "bad_optional_access"
    ∧ (sampleListener.handle downloadingManager emptyNongManager ⟨.ok (), .ok ()⟩
        (.terminal (.value (.ok "song.mp3")))).effects = []
    ∧ Map.contains (sampleListener.handle downloadingManager emptyNongManager
        ⟨.ok (), .ok ()⟩ (.terminal (.value (.ok "song.mp3")))).state.m_downloadSongListeners
        "h" = false
    ∧ Map.get? downloadingManager.m_downloadSongListeners "h" = some sampleListener := by
  decide

/-! ## C8: a failed index fetch -/

theorem fetchIndexTaskMap_error_keeps_files (fs : FileSystem) (filepath : String)
    (index : IndexSource) (canOpen : Bool) (response : WebResponse) (e : String)
    (h : (fetchIndexTaskMap fs filepath index canOpen response).2 = .error e) :
    (fetchIndexTaskMap fs filepath index canOpen response).1 = fs := by
  unfold fetchIndexTaskMap at h ⊢
  by_cases h1 : (response.ok && response.stringOk) = true
  · simp only [h1, if_true] at h ⊢
    cases hp : response.parsed with
    | error err => rfl
    | ok jsonObj =>
      simp only [hp] at h ⊢
      cases hm : IndexMetadata.from_json { jsonObj with url := some index.m_url } with
      | error err =>
        simp only [hm]
        split <;> rfl
      | ok m =>
        simp only [hm] at h ⊢
        split
        · rfl
        · rename_i hobj
          simp only [hobj, if_false] at h
          cases canOpen with
          | false => simp
          | true => simp at h
  · simp only [h1]
    rfl

theorem loadIndex_of_not_cacheLoads (self : IndexManager) (fs : FileSystem) (path : String)
    (h : cacheLoads fs path = false) :
    (self.loadIndex fs path).state = self ∧ (self.loadIndex fs path).effects = [] := by
  unfold IndexManager.loadIndex
  unfold cacheLoads at h
  by_cases h1 : fs.exists path = true
  · simp only [h1, Bool.true_and, Bool.not_true, Bool.false_eq_true, if_false] at h ⊢
    cases hf : Map.get? fs.files path with
    | none => exact ⟨rfl, rfl⟩
    | some input =>
      simp only [hf] at h ⊢
      by_cases h2 : input.readable = true
      · simp only [h2, Bool.true_and, Bool.not_true, Bool.false_eq_true, if_false] at h ⊢
        cases hc : input.contents with
        | error err => exact ⟨rfl, rfl⟩
        | ok jsonObj =>
          simp only [hc] at h ⊢
          cases hm : IndexMetadata.from_json jsonObj with
          | error err => exact ⟨rfl, rfl⟩
          | ok m => simp [hm, Except.toBool] at h
      · simp only [h2]
        exact ⟨rfl, rfl⟩
  · simp only [h1]
    exact ⟨rfl, rfl⟩

/-- C8 (as the code has it): when an index fetch completes with a transport
failure or a parse failure and the cache file of the listener does not load (it
is missing, cannot be opened, does not parse or lacks the identity fields), the
task wrote nothing, and handling the completion leaves the index-variant map and
the loaded-index table unchanged and has no effect. -/
theorem failed_fetch_without_cache (l : FetchIndexListener) (self : IndexManager)
    (fs : FileSystem) (canOpen : Bool) (response : WebResponse)
    (hfail : (response.ok && response.stringOk) = false ∨ ∃ e, response.parsed = .error e)
    (hcache : cacheLoads fs l.filepath = false) :
    (∃ e, (fetchIndexTaskMap fs l.filepath l.index canOpen response).2 = .error e)
    ∧ (fetchIndexTaskMap fs l.filepath l.index canOpen response).1 = fs
    ∧ (l.handle self (fetchIndexTaskMap fs l.filepath l.index canOpen response).1
        (.value (fetchIndexTaskMap fs l.filepath l.index canOpen response).2)).state.m_indexNongs
        = self.m_indexNongs
    ∧ (l.handle self (fetchIndexTaskMap fs l.filepath l.index canOpen response).1
        (.value (fetchIndexTaskMap fs l.filepath l.index canOpen
          response).2)).state.m_loadedIndexes
        = self.m_loadedIndexes
    ∧ (l.handle self (fetchIndexTaskMap fs l.filepath l.index canOpen response).1
        (.value (fetchIndexTaskMap fs l.filepath l.index canOpen response).2)).effects = [] := by
  have herr : ∃ e, (fetchIndexTaskMap fs l.filepath l.index canOpen response).2 = .error e := by
    unfold fetchIndexTaskMap
    rcases hfail with h | ⟨e, h⟩
    · simp [h]
    · by_cases h1 : (response.ok && response.stringOk) = true
      · simp [h1, h]
      · simp [h1]
  obtain ⟨e, he⟩ := herr
  have hfs := fetchIndexTaskMap_error_keeps_files fs l.filepath l.index canOpen response e he
  refine ⟨⟨e, he⟩, hfs, ?_⟩
  rw [hfs, he]
  unfold FetchIndexListener.handle
  simp only
  have hl := loadIndex_of_not_cacheLoads
    { self with m_indexListeners := Map.erase self.m_indexListeners l.index.m_url }
    fs l.filepath hcache
  rw [hl.1, hl.2]
  exact ⟨rfl, rfl, rfl⟩

/-- Witness of C8: the fetch of `indexA` fails on a first run, when the cache
directory holds no file. -/
theorem failed_fetch_without_cache_witness :
    (listenerOfA.handle syncingManager
        (fetchIndexTaskMap freshFileSystem listenerOfA.filepath listenerOfA.index true
          failedResponse).1
        (.value (fetchIndexTaskMap freshFileSystem listenerOfA.filepath listenerOfA.index true
          failedResponse).2)).state.m_indexNongs = syncingManager.m_indexNongs :=
  (failed_fetch_without_cache listenerOfA syncingManager freshFileSystem true failedResponse
    (Or.inl (by decide)) (by decide)).2.2.1

/-- C8 as written fails: the fetch of `indexA` fails in transport while the cache
directory holds the file of an earlier successful fetch. The task writes nothing
and returns an error, yet handling the completion loads the file: the
index-variant map and the loaded-index table gain an entry, and a later
`getNongs(911)` returns the hosted variant `abc` of the index. -/
theorem failed_fetch_as_written_fails :
    fetchIndexTaskMap cachedFileSystem listenerOfA.filepath listenerOfA.index true
        failedResponse = (cachedFileSystem, .error "Web request failed")
    ∧ Map.get? syncingManager.m_indexListeners indexA.m_url = some listenerOfA
    ∧ (listenerOfA.handle syncingManager cachedFileSystem
        (.value (.error "Web request failed"))).state.m_indexNongs ≠ syncingManager.m_indexNongs
    ∧ (listenerOfA.handle syncingManager cachedFileSystem
        (.value (.error "Web request failed"))).state.m_loadedIndexes
        ≠ syncingManager.m_loadedIndexes
    ∧ ∃ l, (listenerOfA.handle syncingManager cachedFileSystem
        (.value (.error "Web request failed"))).state.getNongs userNongManager 911 = .ok l
        ∧ Nong.hostedSong ⟨⟨911, "abc", "name", "artist", none, 0⟩, "http://x/y.mp3",
            some "idx1", none⟩ ∈ l :=
  ⟨by decide, by decide, by decide, by decide, _, rfl, by decide⟩

/-! ## C9: the cache file of an index -/

/-- The cache file path does not depend on the index. -/
theorem indexFilePath_constant (saveDir : String) (a b : IndexSource) :
    indexFilePath saveDir a = indexFilePath saveDir b := rfl

/-- C9, the failing input: a sync pass over two enabled indexes with different
URLs (each longer than three bytes) registers, for both, a listener that
captures the same cache file path. -/
theorem fetchIndexes_shares_cache_file :
    indexA.m_url ≠ indexB.m_url
    ∧ (Map.get? (IndexManager.empty.fetchIndexes "save" [indexA, indexB]).state.m_indexListeners
        indexA.m_url).map (fun l => l.filepath) = some "save/indexes-cache/replace-later.json"
    ∧ (Map.get? (IndexManager.empty.fetchIndexes "save" [indexA, indexB]).state.m_indexListeners
        indexB.m_url).map (fun l => l.filepath) = some "save/indexes-cache/replace-later.json" := by
  decide

/-! ## C10: `init` -/

/-- A call of `init` on an initialized manager changes nothing and starts nothing. -/
theorem init_when_initialized (self : IndexManager) (fs : FileSystem) (saveDir : String)
    (indexes : List IndexSource) (h : self.m_initialized = true) :
    self.init fs saveDir indexes = ⟨self, fs, [], true⟩ := by
  unfold IndexManager.init
  simp [h]

/-- A call of `init` that finds the cache directory leaves the manager
initialized, so that the next call changes nothing. -/
theorem init_twice_with_directory (self : IndexManager) (fs : FileSystem) (saveDir : String)
    (indexes : List IndexSource) (h : fs.exists (baseIndexesPath saveDir) = true) :
    (self.init fs saveDir indexes).result = true
    ∧ (self.init fs saveDir indexes).state.init (self.init fs saveDir indexes).fs saveDir indexes
        = ⟨(self.init fs saveDir indexes).state, (self.init fs saveDir indexes).fs, [], true⟩ := by
  by_cases hi : self.m_initialized = true
  · rw [init_when_initialized self fs saveDir indexes hi]
    exact ⟨rfl, init_when_initialized self fs saveDir indexes hi⟩
  · have hinit : (self.init fs saveDir indexes).state.m_initialized = true
        ∧ (self.init fs saveDir indexes).result = true := by
      unfold IndexManager.init
      simp only [hi, h]
      exact ⟨rfl, rfl⟩
    exact ⟨hinit.2, init_when_initialized _ _ saveDir indexes hinit.1⟩

/-- C10, the failing input: the manager is not initialized and the cache
directory does not exist. The first call creates the directory and returns
success without setting the flag; the second call returns success, sets the
flag, starts the fetch of the configured index and clears the download
listeners. -/
theorem init_twice_on_first_run :
    (downloadingManager.init freshFileSystem "save" [indexA]).result = true
    ∧ (downloadingManager.init freshFileSystem "save" [indexA]).state = downloadingManager
    ∧ ((downloadingManager.init freshFileSystem "save" [indexA]).state.init
        (downloadingManager.init freshFileSystem "save" [indexA]).fs "save" [indexA]).result
        = true
    ∧ ((downloadingManager.init freshFileSystem "save" [indexA]).state.init
        (downloadingManager.init freshFileSystem "save" [indexA]).fs "save"
          [indexA]).state.m_initialized = true
    ∧ downloadingManager.m_initialized = false
    ∧ Effect.webRequest indexA.m_url ∈
        ((downloadingManager.init freshFileSystem "save" [indexA]).state.init
          (downloadingManager.init freshFileSystem "save" [indexA]).fs "save" [indexA]).effects
    ∧ ((downloadingManager.init freshFileSystem "save" [indexA]).state.init
        (downloadingManager.init freshFileSystem "save" [indexA]).fs "save"
          [indexA]).state.m_downloadSongListeners = []
    ∧ downloadingManager.m_downloadSongListeners ≠ [] := by
  decide

end jukebox
